import Mathlib

/-!
Verification of the declarative DAG/Task builders and the interactive
callable-to-notebook editor of the ploomber repository, against its
natural-language specification.

Shallow embedding conventions:

* Python strings are embedded as `List Char` (one entry per character, so
  byte-for-byte claims become list equalities).
* Python heterogeneous values are embedded as `PyVal`; Python mappings
  (`dict`) are embedded as insertion-ordered association lists with the
  `dict*` operations below reproducing `d[k]`, `d.get(k)`, `d.pop(k)`,
  `d[k] = v` and `k in d`.
* Fallible code returns `Except PyErr` mirroring the exception actually
  raised (`KeyError`, `ValueError`, `TypeError`); message strings are
  rebuilt from the format strings in the source.
* Filesystem and import boundaries (`pathlib.Path.resolve`,
  `ploomber.util._load_factory`, the static-analysis call
  `project.infer_from_path`, notebook (de)serialization) are parameters of
  the embedded functions: the code under verification only consumes their
  results.
-/

/-- Characters of a Python string. -/
abbrev Chars := List Char

/-- Embedding of the Python values that flow through the builders:
`None`, booleans, strings, lists and string-keyed dictionaries. -/
inductive PyVal where
  | none : PyVal
  | bool (b : Bool) : PyVal
  | str (s : String) : PyVal
  | list (l : List PyVal) : PyVal
  | dict (l : List (String × PyVal)) : PyVal

/-- A Python dictionary with string keys, in insertion order. -/
abbrev PyDict := List (String × PyVal)

mutual

/-- Decidable equality on embedded Python values. -/
def PyVal.decEq : (a b : PyVal) → Decidable (a = b)
  | .none, .none => isTrue rfl
  | .none, .bool _ => isFalse (fun h => PyVal.noConfusion h)
  | .none, .str _ => isFalse (fun h => PyVal.noConfusion h)
  | .none, .list _ => isFalse (fun h => PyVal.noConfusion h)
  | .none, .dict _ => isFalse (fun h => PyVal.noConfusion h)
  | .bool _, .none => isFalse (fun h => PyVal.noConfusion h)
  | .bool a, .bool b =>
    match decEq a b with
    | isTrue h => isTrue (by rw [h])
    | isFalse h => isFalse (fun hh => h (PyVal.bool.inj hh))
  | .bool _, .str _ => isFalse (fun h => PyVal.noConfusion h)
  | .bool _, .list _ => isFalse (fun h => PyVal.noConfusion h)
  | .bool _, .dict _ => isFalse (fun h => PyVal.noConfusion h)
  | .str _, .none => isFalse (fun h => PyVal.noConfusion h)
  | .str _, .bool _ => isFalse (fun h => PyVal.noConfusion h)
  | .str a, .str b =>
    match decEq a b with
    | isTrue h => isTrue (by rw [h])
    | isFalse h => isFalse (fun hh => h (PyVal.str.inj hh))
  | .str _, .list _ => isFalse (fun h => PyVal.noConfusion h)
  | .str _, .dict _ => isFalse (fun h => PyVal.noConfusion h)
  | .list _, .none => isFalse (fun h => PyVal.noConfusion h)
  | .list _, .bool _ => isFalse (fun h => PyVal.noConfusion h)
  | .list _, .str _ => isFalse (fun h => PyVal.noConfusion h)
  | .list a, .list b =>
    match pyValListDecEq a b with
    | isTrue h => isTrue (by rw [h])
    | isFalse h => isFalse (fun hh => h (PyVal.list.inj hh))
  | .list _, .dict _ => isFalse (fun h => PyVal.noConfusion h)
  | .dict _, .none => isFalse (fun h => PyVal.noConfusion h)
  | .dict _, .bool _ => isFalse (fun h => PyVal.noConfusion h)
  | .dict _, .str _ => isFalse (fun h => PyVal.noConfusion h)
  | .dict _, .list _ => isFalse (fun h => PyVal.noConfusion h)
  | .dict a, .dict b =>
    match pyValEntriesDecEq a b with
    | isTrue h => isTrue (by rw [h])
    | isFalse h => isFalse (fun hh => h (PyVal.dict.inj hh))

/-- Decidable equality on lists of embedded Python values. -/
def pyValListDecEq : (a b : List PyVal) → Decidable (a = b)
  | [], [] => isTrue rfl
  | [], _ :: _ => isFalse (fun h => List.noConfusion h)
  | _ :: _, [] => isFalse (fun h => List.noConfusion h)
  | a :: as, b :: bs =>
    match PyVal.decEq a b, pyValListDecEq as bs with
    | isTrue h1, isTrue h2 => isTrue (by rw [h1, h2])
    | isFalse h1, _ => isFalse (fun hh => h1 (List.cons.inj hh).1)
    | _, isFalse h2 => isFalse (fun hh => h2 (List.cons.inj hh).2)

/-- Decidable equality on dictionary entry lists. -/
def pyValEntriesDecEq : (a b : List (String × PyVal)) → Decidable (a = b)
  | [], [] => isTrue rfl
  | [], _ :: _ => isFalse (fun h => List.noConfusion h)
  | _ :: _, [] => isFalse (fun h => List.noConfusion h)
  | (k1, v1) :: as, (k2, v2) :: bs =>
    match decEq k1 k2, PyVal.decEq v1 v2, pyValEntriesDecEq as bs with
    | isTrue h1, isTrue h2, isTrue h3 => isTrue (by rw [h1, h2, h3])
    | isFalse h1, _, _ =>
      isFalse (fun hh => h1 (congrArg Prod.fst (List.cons.inj hh).1))
    | _, isFalse h2, _ =>
      isFalse (fun hh => h2 (congrArg Prod.snd (List.cons.inj hh).1))
    | _, _, isFalse h3 => isFalse (fun hh => h3 (List.cons.inj hh).2)

end

instance : DecidableEq PyVal := PyVal.decEq

/-- Python truthiness (`bool(v)`) for the embedded values: `None` and empty
containers/strings are falsy. -/
def PyVal.truthy : PyVal → Bool
  | .none => false
  | .bool b => b
  | .str s => s != ""
  | .list l => !l.isEmpty
  | .dict l => !l.isEmpty

/-- `d[k]` as an optional lookup (first matching key). -/
def dictLookup (d : PyDict) (k : String) : Option PyVal :=
  (d.find? (fun kv => kv.1 = k)).map (fun kv => kv.2)

/-- `k in d`. -/
def dictContains (d : PyDict) (k : String) : Bool :=
  (dictLookup d k).isSome

/-- `d.get(k)` (missing key yields `None`). -/
def dictGet (d : PyDict) (k : String) : PyVal :=
  (dictLookup d k).getD PyVal.none

/-- `d[k] = v`: replace the value in place if the key exists, else append. -/
def dictSet (d : PyDict) (k : String) (v : PyVal) : PyDict :=
  match d with
  | [] => [(k, v)]
  | kv :: rest => if kv.1 = k then (k, v) :: rest else kv :: dictSet rest k v

/-- Removal of a key (the effect on the mapping of `d.pop(k)`). -/
def dictErase (d : PyDict) (k : String) : PyDict :=
  d.filter (fun kv => kv.1 ≠ k)

/-- `d.pop(k, default)`: the popped value (if any) together with the
remaining dictionary. -/
def dictPop (d : PyDict) (k : String) : Option PyVal × PyDict :=
  (dictLookup d k, dictErase d k)

/-- The exceptions raised by the embedded code. -/
inductive PyErr where
  | keyError (msg : String) : PyErr
  | valueError (msg : String) : PyErr
  | typeError : PyErr
deriving DecidableEq, Repr

deriving instance DecidableEq for Except

/-- Sequential effectful map with error propagation (a Python list
comprehension whose body may raise). -/
def exceptMap {ε α β : Type} (F : α → Except ε β) : List α → Except ε (List β)
  | [] => Except.ok []
  | a :: l => do
    let b ← F a
    let bs ← exceptMap F l
    pure (b :: bs)

mutual

/-- Python `repr` of an embedded value (used by the `.format(...)` error
messages, which embed the offending mapping). -/
def PyVal.pyRepr : PyVal → String
  | .none => "None"
  | .bool b => if b then "True" else "False"
  | .str s => "\x27" ++ s ++ "\x27"
  | .list l => "[" ++ ", ".intercalate (pyReprList l) ++ "]"
  | .dict l => "\x7b" ++ ", ".intercalate (pyReprEntries l) ++ "\x7d"

/-- `repr` of each element of a list. -/
def pyReprList : List PyVal → List String
  | [] => []
  | v :: vs => v.pyRepr :: pyReprList vs

/-- `repr` of each entry of a dictionary. -/
def pyReprEntries : List (String × PyVal) → List String
  | [] => []
  | kv :: rest => ("\x27" ++ kv.1 ++ "\x27: " ++ kv.2.pyRepr) :: pyReprEntries rest

end

/-- Python `str.splitlines` for strings whose only line terminator is
a newline character: `""` gives `[]`, a trailing newline adds no final
empty line. -/
def splitlinesChars : Chars → List Chars
  | [] => []
  | c :: rest =>
    if c = '\n' then [] :: splitlinesChars rest
    else
      match splitlinesChars rest with
      | [] => [[c]]
      | l :: ls => (c :: l) :: ls

/-- Python `str.split(sep)` for a one-character separator: always yields
one more piece than there are separators, so `""` gives `[""]`. -/
def splitSepChar (sep : Char) : Chars → List Chars
  | [] => [[]]
  | c :: rest =>
    if c = sep then [] :: splitSepChar sep rest
    else
      match splitSepChar sep rest with
      | [] => [[c]]
      | l :: ls => (c :: l) :: ls

/-- `'\n'.join(lines)`. -/
def joinLines : List Chars → Chars
  | [] => []
  | [l] => l
  | l :: ls => l ++ '\n' :: joinLines ls

namespace Interact

/-!
Embedding of `src/src/ploomber/sources/interact.py`.

A notebook cell carries a cell type, a metadata tag list and its source
text (the shape read back by `nbformat.read`, a boundary).
-/

/-- One cell of the temporary notebook document. -/
structure Cell where
  cell_type : Chars
  tags : List Chars
  source : Chars
deriving DecidableEq, Repr

/-- The tags of cells that exist only for the notebook session
(`interact.keep_cell`, line 137). -/
def tmpTags : List Chars :=
  ["injected-parameters".data, "imports".data, "imports-new".data]

/-- `interact.keep_cell`: keep a cell iff it is a code cell, carries none
of the temporary tags, and its first two characters are not `#` followed
by a newline. -/
def keep_cell (c : Cell) : Bool :=
  (c.cell_type == "code".data) &&
    !(c.tags.any (fun t => tmpTags.contains t)) &&
    (c.source.take 2 != "#\n".data)

/-- `interact.indent_line`. -/
def indent_line (lline : Chars) : Chars :=
  if lline ≠ [] then "    ".data ++ lline else []

/-- `interact.indent_cell`. -/
def indent_cell (code : Chars) : Chars :=
  joinLines ((splitlinesChars code).map indent_line)

/-- `interact.get_imports_new_source`: source of the first cell tagged
`imports-new`, with comment lines discarded; `Option.none` when there is
no such cell, its source is empty, or only comment lines remain. -/
def get_imports_new_source (cells : List Cell) : Option Chars :=
  let source := (cells.find? (fun c => c.tags.contains "imports-new".data)).map
    (fun c => c.source)
  match source with
  | Option.none => Option.none
  | Option.some s =>
    if s ≠ [] then
      let lines := (splitlinesChars s).filter (fun line => line.take 1 ≠ ['#'])
      if lines ≠ [] then Option.some (joinLines lines ++ ['\n']) else Option.none
    else Option.none

/-- `CallableInteractiveDeveloper._overwrite_from_nb`, as a pure function
from the current source-file content, the session's line bookkeeping
(`lines_num_limits = (fn_starts, fn_ends)` from `inspect.getsourcelines`,
1-based, and `body_start` from `parse_function`) and the notebook cells
read back, to the new file content.  Returns `Option.none` for empty file
content (where `content[-1]` raises `IndexError`). -/
def overwrite_from_nb (content : Chars) (fn_starts fn_ends body_start : Nat)
    (cells : List Cell) : Option Chars :=
  if content = [] then Option.none
  else
    let code_cells := (cells.filter keep_cell).map (fun c => indent_cell c.source)
    let content_lines := splitlinesChars content
    let trailing_newline := content.getLast? = Option.some '\n'
    let keep_until := fn_starts + body_start
    let header := content_lines.take keep_until
    let footer := content_lines.drop fn_ends
    let footer := if footer ≠ [] then [] :: footer else footer
    let new_content := joinLines (header ++ code_cells ++ footer)
    let new_content := if trailing_newline then new_content ++ ['\n'] else new_content
    let new_content :=
      match get_imports_new_source cells with
      | Option.some imports_new => imports_new ++ new_content
      | Option.none => new_content
    Option.some new_content

/-- The per-session state of `CallableInteractiveDeveloper` when `__exit__`
runs: the entry snapshot (`_source_code`), the current content of the
source file, the notebook cells currently on disk at `tmp_path`, whether
the temporary notebook still exists, the session's naming data and the
line bookkeeping. -/
structure EditorState where
  snapshot : Chars
  fileText : Chars
  tmpCells : List Cell
  tmpExists : Bool
  pathToSource : Chars
  fnName : Chars
  tmpPath : Chars
  fnStarts : Nat
  fnEnds : Nat
  bodyStart : Nat
deriving DecidableEq, Repr

/-- The message of the `ValueError` raised by `__exit__` when the source
file changed while the session was open (lines 114-120). -/
def corruption_message (pathToSource fnName tmpPath : Chars) : Chars :=
  "File \"".data ++ pathToSource ++
    "\" (where callable \"".data ++ fnName ++
    "\" is defined) changed while editing the function in the notebook app. This might lead to corrupted source files. Changes from the notebook were not saved back to the module. Notebook available at \"".data ++
    tmpPath

/-- The outcome `__exit__` can raise. -/
inductive ExitErr where
  | corruption (msg : Chars) : ExitErr
  | indexError : ExitErr
deriving DecidableEq, Repr

/-- `CallableInteractiveDeveloper.__exit__`: re-read the source file;
if it no longer matches the entry snapshot raise the corruption
`ValueError` (leaving both the file and the temporary notebook alone);
otherwise overwrite the file from the notebook and delete the temporary
notebook.  Returns the state after the call paired with the raised
exception, if any. -/
def exitStep (st : EditorState) : EditorState × Option ExitErr :=
  let current_source_code := st.fileText
  if st.snapshot ≠ current_source_code then
    (st, Option.some (ExitErr.corruption
      (corruption_message st.pathToSource st.fnName st.tmpPath)))
  else
    match overwrite_from_nb st.fileText st.fnStarts st.fnEnds st.bodyStart st.tmpCells with
    | Option.some new_content =>
      ({ st with fileText := new_content, tmpExists := false }, Option.none)
    | Option.none => (st, Option.some ExitErr.indexError)

/-- The cell-splicing rule as the specification words it (§4.6 "Normal"):
keep cells that are code cells, carry none of the temporary tags, and
whose source does not begin with a comment line.  Stated for comparison
with `keep_cell`. -/
def spec_keep_cell (c : Cell) : Bool :=
  (c.cell_type == "code".data) &&
    !(c.tags.any (fun t => tmpTags.contains t)) &&
    !(((splitlinesChars c.source).headD []).take 1 == ['#'])

end Interact

/-- Python `str(v)` (the `"{}".format(...)` conversion): strings appear
bare, every other value as its `repr`. -/
def PyVal.pyStr : PyVal → String
  | .str s => s
  | v => v.pyRepr

/-- `pathlib.Path(p).suffix` (boundary model of pathlib, posix flavor):
the final component's extension from its last dot, empty when the last
dot is leading or absent. -/
def pySuffix (p : String) : String :=
  let name := (splitSepChar '/' p.data).getLastD []
  match (name.reverse.findIdx? (fun c => c = '.')) with
  | Option.some j =>
    let i := name.length - 1 - j
    if 0 < i ∧ i < name.length - 1 then String.mk (name.drop i) else ""
  | Option.none => ""

/-- `pathlib.Path(p).parent` (boundary model of pathlib, posix flavor):
drop the final component; a bare file name has parent `"."`, a
root-level file has parent `"/"`. -/
def pyParent (p : String) : String :=
  let parts := splitSepChar '/' p.data
  match parts.dropLast with
  | [] => "."
  | ps =>
    let joined := String.mk (List.intercalate ['/'] ps)
    if joined = "" then (if p.data.headD ' ' = '/' then "/" else ".") else joined

/-- `str(pathlib.Path(a, b))` (boundary model of pathlib): `b` verbatim
when absolute, otherwise the components joined with a slash. -/
def pyPathJoin (a b : String) : String :=
  if b.data.headD ' ' = '/' then b else a ++ "/" ++ b

namespace TaskDictM

/-!
Embedding of `src/src/ploomber/spec/TaskDict.py`.

External classes (`ploomber.tasks.*`, `ploomber.products.*`) are resolved
by `getattr` against their module in the source; here a resolved class is
represented by the value that names it, and an instantiated client by the
image of its dotted path under a caller-supplied `loadFactory` boundary
function.
-/

/-- `TaskDict.suffix2taskclass` (module constant, lines 11-16), with each
task class represented by its name. -/
def suffix2taskclass : List (String × String) :=
  [(".py", "NotebookRunner"), (".ipynb", "NotebookRunner"),
   (".sql", "SQLScript"), (".sh", "ShellScript")]

/-- Python `str(set(...))` over the keys of the suffix table, in insertion
order (set iteration order is a boundary detail). -/
def suffixSetRepr (table : List (String × String)) : String :=
  "\x7b" ++ ", ".intercalate (table.map (fun kv => "\x27" ++ kv.1 ++ "\x27")) ++ "\x7d"

/-- The `KeyError` message of `get_task_class` for an unsupported suffix
(lines 181-186). -/
def noDefaultClassMsg (source : PyVal) : String :=
  "No default task class available for task with source: \"" ++ source.pyStr ++
    "\". Default class is only available for files with extensions " ++
    suffixSetRepr suffix2taskclass ++
    ", otherwise you should set an explicit class key"

/-- `TaskDict.get_task_class` (lines 163-188): pop the explicit class key;
when it is truthy resolve by name (import boundary, the class kept as its
name value), otherwise consult the suffix table for the source path,
raising `KeyError` with the unsupported-suffix message when absent. -/
def get_task_class (task_dict : PyDict) : Except PyErr (PyVal × PyDict) :=
  let r := dictPop task_dict "class"
  let class_name := r.1.getD PyVal.none
  let td := r.2
  if class_name.truthy then
    Except.ok (class_name, td)
  else
    match dictLookup td "source" with
    | Option.none => Except.error (PyErr.keyError "source")
    | Option.some sv =>
      match sv with
      | PyVal.str src =>
        match suffix2taskclass.find? (fun kv => kv.1 = pySuffix src) with
        | Option.some kv => Except.ok (PyVal.str kv.2, td)
        | Option.none => Except.error (PyErr.keyError (noDefaultClassMsg sv))
      | _ => Except.error PyErr.typeError

/-- Modelled from the spec: the Key-Set Validator
`ploomber.spec.validate.keys` (module `ploomber/spec/validate.py`, which
is not under src/).  Per §4.3 it fails with a Validation error naming the
label and the offending mapping when a required key is absent from the
passed mapping or, when an allowed set is given, when a passed key is
outside it; it returns nothing on success. -/
def validateKeys (valid : Option (List String)) (passed : PyDict)
    (required : List String) (name : String) : Except PyErr Unit :=
  if required.all (fun k => dictContains passed k) then
    match valid with
    | Option.some allowed =>
      if passed.all (fun kv => allowed.contains kv.1) then Except.ok ()
      else Except.error (PyErr.valueError
        ("Error validating " ++ name ++ ": unexpected keys in " ++
          (PyVal.dict passed).pyRepr))
    | Option.none => Except.ok ()
  else
    Except.error (PyErr.valueError
      ("Error validating " ++ name ++ ": missing required keys in " ++
        (PyVal.dict passed).pyRepr))

/-- The `ValueError` message of `TaskDict.validate` for an explicit
upstream key under `extract_upstream` (lines 37-40). -/
def extractUpstreamMsg (data : PyDict) : String :=
  "Error validating task \"" ++ (PyVal.dict data).pyStr ++
    "\", if meta.extract_upstream is set to True, tasks should not have an \"upstream\" key"

/-- The `ValueError` message of `TaskDict.validate` for an explicit
product key under `extract_product` (lines 43-46). -/
def extractProductMsg (data : PyDict) : String :=
  "Error validating task \"" ++ (PyVal.dict data).pyStr ++
    "\", if meta.extract_product is set to True, tasks should not have a \"product\" key"

/-- `TaskDict.validate` (lines 26-46), run by `__init__`: look up
`meta['extract_product']` (KeyError when absent) to choose the required
key set, run the Key-Set Validator, then reject a truthy `upstream` under
a truthy `meta['extract_upstream']` (KeyError when absent) and a truthy
`product` under a truthy `meta['extract_product']`. -/
def validate (data meta : PyDict) : Except PyErr Unit := do
  let ep ← match dictLookup meta "extract_product" with
    | Option.some v => pure v
    | Option.none => Except.error (PyErr.keyError "extract_product")
  let required := if ep.truthy then ["source"] else ["product", "source"]
  validateKeys Option.none data required "task spec"
  let eu ← match dictLookup meta "extract_upstream" with
    | Option.some v => pure v
    | Option.none => Except.error (PyErr.keyError "extract_upstream")
  if eu.truthy && (dictGet data "upstream").truthy then
    Except.error (PyErr.valueError (extractUpstreamMsg data))
  else if ep.truthy && (dictGet data "product").truthy then
    Except.error (PyErr.valueError (extractProductMsg data))
  else
    pure ()

/-- `TaskDict._make_iterable` (lines 87-93): `None` becomes the empty
list, a string or other non-iterable scalar a one-element list, and an
iterable (list or dictionary) is returned unchanged. -/
def _make_iterable : PyVal → PyVal
  | PyVal.none => PyVal.list []
  | PyVal.str s => PyVal.list [PyVal.str s]
  | PyVal.list l => PyVal.list l
  | PyVal.dict l => PyVal.dict l
  | PyVal.bool b => PyVal.list [PyVal.bool b]

/-- `TaskDict._pop_upstream` (lines 96-98). -/
def _pop_upstream (task_dict : PyDict) : PyVal × PyDict :=
  let r := dictPop task_dict "upstream"
  (_make_iterable (r.1.getD PyVal.none), r.2)

/-- `TaskDict.get_value_at`'s walk (lines 191-200): index the current
value by each key in turn, turning a `KeyError` into `None`; indexing a
non-mapping by a string key is a `TypeError` the source does not catch. -/
def getValueAtWalk : PyVal → List String → Except PyErr (Option PyVal)
  | v, [] => Except.ok (Option.some v)
  | PyVal.dict l, k :: ks =>
    match dictLookup l k with
    | Option.some v => getValueAtWalk v ks
    | Option.none => Except.ok Option.none
  | _, _ :: _ => Except.error PyErr.typeError

/-- `TaskDict.get_value_at` (lines 191-200). -/
def get_value_at (d : PyDict) (dotted : String) : Except PyErr (Option PyVal) :=
  getValueAtWalk (PyVal.dict d)
    ((splitSepChar '.' dotted.data).map (fun cs => String.mk cs))

/-- The `ValueError` message of `_init_product` when no product class can
be determined (lines 121-126); the mapping formatted is the task mapping
after the product key was popped. -/
def missingProductClassMsg (task_dict : PyDict) : String :=
  "Could not determine a product class for task: \"" ++
    (PyVal.dict task_dict).pyStr ++
    "\". Add an explicity value in the \"product_class\" key or provide a default value in meta.product_default_class by setting the key to the applicable task class"

/-- The class-resolution block of `_init_product` (lines 113-126): read
`meta.product_default_class.<task class name>`, then prefer an explicit
`product_class` key (popped; resolved by `getattr`, an import boundary,
so the class is kept as the value naming it), else a truthy meta default,
else raise the missing-product-class `ValueError` naming the task. -/
def resolveProductClass (task_dict : PyDict) (meta : PyDict)
    (taskClassName : String) : Except PyErr (PyVal × PyDict) := do
  let key := "product_default_class." ++ taskClassName
  let mpdc ← get_value_at meta key
  if dictContains task_dict "product_class" then
    let r := dictPop task_dict "product_class"
    pure (r.1.getD PyVal.none, r.2)
  else if (mpdc.getD PyVal.none).truthy then
    pure (mpdc.getD PyVal.none, task_dict)
  else
    Except.error (PyErr.valueError (missingProductClassMsg task_dict))

/-- The name of a resolved class (its `__name__`); classes are
represented by the values naming them. -/
def classNameOf : PyVal → String := PyVal.pyStr

/-- One constructed external Product instance: its class, the (possibly
relativized) raw value it was built from, and the optional product
client passed as keyword argument. -/
structure Product where
  cls : PyVal
  value : PyVal
  client : Option PyVal
deriving DecidableEq

/-- The result of product construction: one Product, or one per named
entry of a mapping-shaped raw product. -/
inductive ProductRes where
  | single (p : Product) : ProductRes
  | mapping (l : List (String × Product)) : ProductRes
deriving DecidableEq

/-- `TaskDict.resolve_product` (lines 146-154): keep the raw value
unless a relative base was given and the class is the plain file-backed
`File`, in which case resolve the base directory (filesystem boundary
`resolveFn`) and join it with the raw path. -/
def resolve_product (product_raw : PyVal) (relative_to : Option String)
    (cls : PyVal) (resolveFn : String → String) : Except PyErr PyVal :=
  match relative_to with
  | Option.none => Except.ok product_raw
  | Option.some rel =>
    if cls ≠ PyVal.str "File" then Except.ok product_raw
    else
      match product_raw with
      | PyVal.str p => Except.ok (PyVal.str (pyPathJoin (resolveFn rel) p))
      | _ => Except.error PyErr.typeError

/-- The body of the dict comprehension of `_init_product` (lines
138-140): build one named Product from one raw entry. -/
def _init_product_entry (relative_to : Option String) (CLASS : PyVal)
    (resolveFn : String → String) (kwClient : Option PyVal)
    (kv : String × PyVal) : Except PyErr (String × Product) := do
  let rv ← resolve_product kv.2 relative_to CLASS resolveFn
  pure (kv.1, Product.mk CLASS rv kwClient)

/-- `TaskDict._init_product` (lines 102-143): pop the raw product,
resolve the product class, resolve an optional product client (import
boundary `loadFactory`), compute the relative base from
`meta['product_relative_to_source']` (KeyError when absent; the source
path is read only when the flag is truthy), then build one Product per
raw value through `resolve_product`. -/
def _init_product (task_dict : PyDict) (meta : PyDict) (taskClass : PyVal)
    (loadFactory : PyVal → PyVal) (resolveFn : String → String) :
    Except PyErr (ProductRes × PyDict) := do
  let rp := dictPop task_dict "product"
  let product_raw ← match rp.1 with
    | Option.some v => pure v
    | Option.none => Except.error (PyErr.keyError "product")
  let td := rp.2
  let r ← resolveProductClass td meta (classNameOf taskClass)
  let CLASS := r.1
  let td := r.2
  let rc :=
    if dictContains td "product_client" then
      let r2 := dictPop td "product_client"
      (Option.some (loadFactory (r2.1.getD PyVal.none)), r2.2)
    else (Option.none, td)
  let kwClient := rc.1
  let td := rc.2
  let prs ← match dictLookup meta "product_relative_to_source" with
    | Option.some v => pure v
    | Option.none => Except.error (PyErr.keyError "product_relative_to_source")
  let relative_to : Option String ←
    if prs.truthy then
      match dictLookup td "source" with
      | Option.some (PyVal.str src) => pure (Option.some (pyParent src))
      | Option.some _ => Except.error PyErr.typeError
      | Option.none => Except.error (PyErr.keyError "source")
    else pure Option.none
  match product_raw with
  | PyVal.dict entries => do
    let prods ← exceptMap
      (_init_product_entry relative_to CLASS resolveFn kwClient) entries
    pure (ProductRes.mapping prods, td)
  | v => do
    let rv ← resolve_product v relative_to CLASS resolveFn
    pure (ProductRes.single (Product.mk CLASS rv kwClient), td)

/-- `TaskDict._init_client` (lines 157-160): replace a dotted-path
`client` entry by the instantiated client (import boundary
`loadFactory`). -/
def _init_client (task_dict : PyDict) (loadFactory : PyVal → PyVal) : PyDict :=
  if dictContains task_dict "client" then
    let r := dictPop task_dict "client"
    dictSet r.2 "client" (loadFactory (r.1.getD PyVal.none))
  else task_dict

/-- One constructed external step: resolved class, raw source path,
resolved name, products, and the remaining mapping keys forwarded
verbatim as step parameters. -/
structure Task where
  cls : PyVal
  source : PyVal
  name : PyVal
  product : ProductRes
  params : PyDict
deriving DecidableEq

/-- `TaskDict.to_task` (lines 48-68): pop upstream, resolve the step
class, build the products, resolve the optional client, pop source and
name (name defaulting to the raw source) and assemble the step, returned
with its upstream identifiers. -/
def to_task (data meta : PyDict) (loadFactory : PyVal → PyVal)
    (resolveFn : String → String) : Except PyErr (Task × PyVal) := do
  let pu := _pop_upstream data
  let upstream := pu.1
  let td := pu.2
  let rcls ← get_task_class td
  let class_ := rcls.1
  let td := rcls.2
  let rprod ← _init_product td meta class_ loadFactory resolveFn
  let product := rprod.1
  let td := rprod.2
  let td := _init_client td loadFactory
  let rs := dictPop td "source"
  let source_raw ← match rs.1 with
    | Option.some v => pure v
    | Option.none => Except.error (PyErr.keyError "source")
  let td := rs.2
  let rn := dictPop td "name"
  let name_raw := rn.1.getD PyVal.none
  let td := rn.2
  let task : Task :=
    { cls := class_, source := source_raw,
      name := if name_raw.truthy then name_raw else source_raw,
      product := product, params := td }
  pure (task, upstream)

end TaskDictM

namespace DAGSpecM

/-!
Embedding of `src/src/ploomber/dag/DAGSpec.py`.

The externally owned graph object is embedded as an association list from
step name to step, written by registration (`dagSet`, the effect of
constructing a task bound to the graph) and read by identifier lookup;
the static-analysis boundary call `project.infer_from_path` is a
parameter supplying its two result maps.
-/

/-- `DAGSpec.normalize_task` (lines 28-32). -/
def normalize_task : PyVal → PyVal
  | PyVal.str s => PyVal.dict [("source", PyVal.str s)]
  | t => t

/-- `DAGSpec.validate_meta` (lines 46-54): create an empty meta mapping
when absent, then back-fill only `infer_upstream` and `extract_product`
with `True`; a non-mapping meta value makes the membership test a
`TypeError`. -/
def validate_meta (data : PyDict) : Except PyErr PyDict := do
  let data := if dictContains data "meta" then data else dictSet data "meta" (PyVal.dict [])
  let m ← match dictLookup data "meta" with
    | Option.some (PyVal.dict m) => pure m
    | Option.some _ => Except.error PyErr.typeError
    | Option.none => Except.error (PyErr.keyError "meta")
  let m := if dictContains m "infer_upstream" then m
    else dictSet m "infer_upstream" (PyVal.bool true)
  let m := if dictContains m "extract_product" then m
    else dictSet m "extract_product" (PyVal.bool true)
  pure (dictSet data "meta" (PyVal.dict m))

/-- `DAGSpec.get_value_at` (lines 73-82), an identical copy of the walk in
`TaskDict.py`. -/
def get_value_at (d : PyDict) (dotted : String) : Except PyErr (Option PyVal) :=
  TaskDictM.getValueAtWalk (PyVal.dict d)
    ((splitSepChar '.' dotted.data).map (fun cs => String.mk cs))

/-- `DAGSpec._make_iterable` (lines 85-91), an identical copy of the one
in `TaskDict.py`. -/
def _make_iterable : PyVal → PyVal
  | PyVal.none => PyVal.list []
  | PyVal.str s => PyVal.list [PyVal.str s]
  | PyVal.list l => PyVal.list l
  | PyVal.dict l => PyVal.dict l
  | PyVal.bool b => PyVal.list [PyVal.bool b]

/-- `DAGSpec._pop_upstream` (lines 94-96). -/
def _pop_upstream (task_dict : PyDict) : PyVal × PyDict :=
  let r := dictPop task_dict "upstream"
  (_make_iterable (r.1.getD PyVal.none), r.2)

/-- `DAGSpec._pop_product` (lines 99-114): pop the raw product, choose
the class from an explicit popped `product_class` key, else a truthy
`meta.product_class`, else the plain file-backed `File`, and build one
Product per raw value (no client, no relativization on this path). -/
def _pop_product (task_dict : PyDict) (dag_spec : PyDict) :
    Except PyErr (TaskDictM.ProductRes × PyDict) := do
  let rp := dictPop task_dict "product"
  let product_raw ← match rp.1 with
    | Option.some v => pure v
    | Option.none => Except.error (PyErr.keyError "product")
  let td := rp.2
  let pc ← get_value_at dag_spec "meta.product_class"
  let rcls :=
    if dictContains td "product_class" then
      let r := dictPop td "product_class"
      (r.1.getD PyVal.none, r.2)
    else if (pc.getD PyVal.none).truthy then (pc.getD PyVal.none, td)
    else (PyVal.str "File", td)
  let CLASS := rcls.1
  let td := rcls.2
  match product_raw with
  | PyVal.dict entries =>
    pure (TaskDictM.ProductRes.mapping
      (entries.map (fun kv => (kv.1, TaskDictM.Product.mk CLASS kv.2 Option.none))), td)
  | v =>
    pure (TaskDictM.ProductRes.single (TaskDictM.Product.mk CLASS v Option.none), td)

/-- `DAGSpec.suffix2class` (lines 117-122), an identical table to the one
in `TaskDict.py`. -/
def suffix2class : List (String × String) :=
  [(".py", "NotebookRunner"), (".ipynb", "NotebookRunner"),
   (".sql", "SQLScript"), (".sh", "ShellScript")]

/-- The `KeyError` message of `DAGSpec.get_task_class` for an unsupported
suffix (lines 143-148). -/
def noDefaultClassMsg (source : PyVal) : String :=
  "No default task class available for task with source: \"" ++ source.pyStr ++
    "\". Default class is only available for files with extensions " ++
    TaskDictM.suffixSetRepr suffix2class ++
    ", otherwise you should set an explicit class key"

/-- `DAGSpec.get_task_class` (lines 125-150), an identical copy of the
one in `TaskDict.py`. -/
def get_task_class (task_dict : PyDict) : Except PyErr (PyVal × PyDict) :=
  let r := dictPop task_dict "class"
  let class_name := r.1.getD PyVal.none
  let td := r.2
  if class_name.truthy then
    Except.ok (class_name, td)
  else
    match dictLookup td "source" with
    | Option.none => Except.error (PyErr.keyError "source")
    | Option.some sv =>
      match sv with
      | PyVal.str src =>
        match suffix2class.find? (fun kv => kv.1 = pySuffix src) with
        | Option.some kv => Except.ok (PyVal.str kv.2, td)
        | Option.none => Except.error (PyErr.keyError (noDefaultClassMsg sv))
      | _ => Except.error PyErr.typeError

/-- `DAGSpec.init_task` (lines 153-170): pop upstream, resolve the step
class, build the products, pop source and name (name defaulting to the
raw source) and assemble the step, returned with its upstream
identifiers. -/
def init_task (task_dict : PyDict) (dag_spec : PyDict) :
    Except PyErr (TaskDictM.Task × PyVal) := do
  let pu := _pop_upstream task_dict
  let upstream := pu.1
  let td := pu.2
  let rcls ← get_task_class td
  let class_ := rcls.1
  let td := rcls.2
  let rprod ← _pop_product td dag_spec
  let product := rprod.1
  let td := rprod.2
  let rs := dictPop td "source"
  let source_raw ← match rs.1 with
    | Option.some v => pure v
    | Option.none => Except.error (PyErr.keyError "source")
  let td := rs.2
  let rn := dictPop td "name"
  let name_raw := rn.1.getD PyVal.none
  let td := rn.2
  let task : TaskDictM.Task :=
    { cls := class_, source := source_raw,
      name := if name_raw.truthy then name_raw else source_raw,
      product := product, params := td }
  pure (task, upstream)

/-- `dag_spec['meta'][k]`. -/
def metaItem (dag_spec : PyDict) (k : String) : Except PyErr PyVal :=
  match dictLookup dag_spec "meta" with
  | Option.some (PyVal.dict m) =>
    match dictLookup m k with
    | Option.some v => Except.ok v
    | Option.none => Except.error (PyErr.keyError k)
  | Option.some _ => Except.error PyErr.typeError
  | Option.none => Except.error (PyErr.keyError "meta")

/-- Registration of a constructed step on the externally owned graph
(boundary: building a task bound to the graph records it under its
name). -/
def dagSet (d : List (PyVal × TaskDictM.Task)) (k : PyVal) (v : TaskDictM.Task) :
    List (PyVal × TaskDictM.Task) :=
  match d with
  | [] => [(k, v)]
  | kv :: rest => if kv.1 = k then (k, v) :: rest else kv :: dagSet rest k v

/-- `dag[identifier]` lookup on the embedded graph. -/
def dagLookup (d : List (PyVal × TaskDictM.Task)) (k : PyVal) :
    Option TaskDictM.Task :=
  (d.find? (fun kv => kv.1 = k)).map (fun kv => kv.2)

/-- Iteration over an embedded Python value (`for x in v`). -/
def pyIter : PyVal → Except PyErr (List PyVal)
  | PyVal.list l => Except.ok l
  | PyVal.dict l => Except.ok (l.map (fun kv => PyVal.str kv.1))
  | PyVal.str s => Except.ok (s.data.map (fun c => PyVal.str (String.mk [c])))
  | _ => Except.error PyErr.typeError

/-- Events of a `process_tasks` run: a step being registered on the
graph, and a step being wired to (marked as downstream of) a
dependency. -/
inductive BuildEvent where
  | register (name : PyVal) : BuildEvent
  | wire (dep : PyVal) (name : PyVal) : BuildEvent
deriving DecidableEq

/-- Whether an event is a registration. -/
def BuildEvent.isRegister : BuildEvent → Bool
  | BuildEvent.register _ => true
  | BuildEvent.wire _ _ => false

/-- The final wired graph produced by `process_tasks`: the registered
steps keyed by name, the dependency edges `(upstream identifier,
downstream step name)`, and the event log of the run. -/
structure Graph where
  steps : List (PyVal × TaskDictM.Task)
  edges : List (PyVal × PyVal)
  trace : List BuildEvent
deriving DecidableEq

/-- The body of the first loop of `process_tasks` (lines 205-215): read
the task's source, overwrite `upstream` from the inferred map when
`infer_upstream` is truthy and `product` from the extracted map when
`extract_product` is truthy, and build the step via `init_task`. -/
def buildOne (dag_spec : PyDict) (infer extract : PyVal)
    (upMap prodMap : List (PyVal × PyVal)) (task_dict : PyDict) :
    Except PyErr (TaskDictM.Task × PyVal) := do
  let source ← match dictLookup task_dict "source" with
    | Option.some v => pure v
    | Option.none => Except.error (PyErr.keyError "source")
  let td ←
    if infer.truthy then
      match upMap.find? (fun kv => kv.1 = source) with
      | Option.some kv => pure (dictSet task_dict "upstream" kv.2)
      | Option.none => Except.error (PyErr.keyError source.pyRepr)
    else pure task_dict
  let td ←
    if extract.truthy then
      match prodMap.find? (fun kv => kv.1 = source) with
      | Option.some kv => pure (dictSet td "product" kv.2)
      | Option.none => Except.error (PyErr.keyError source.pyRepr)
    else pure td
  init_task td dag_spec

/-- The body of the inner wiring loop (line 220):
`task.set_upstream(dag[task_dep])` records the edge after looking the
identifier up among the registered steps, raising `KeyError` when it is
not registered. -/
def wireDep (dagSteps : List (PyVal × TaskDictM.Task)) (task : TaskDictM.Task)
    (dep : PyVal) : Except PyErr (PyVal × PyVal) :=
  match dagLookup dagSteps dep with
  | Option.some _ => pure (dep, task.name)
  | Option.none => Except.error (PyErr.keyError dep.pyRepr)

/-- The body of the outer wiring loop (lines 218-220): fetch the step's
remembered upstream identifiers (the dictionary keyed by the task) and
wire each of them. -/
def wireTask (pairs : List (TaskDictM.Task × PyVal))
    (dagSteps : List (PyVal × TaskDictM.Task)) (task : TaskDictM.Task) :
    Except PyErr (List (PyVal × PyVal)) := do
  let ups := ((pairs.find? (fun p => p.1 = task)).map (fun p => p.2)).getD
    (PyVal.list [])
  let deps ← pyIter ups
  exceptMap (wireDep dagSteps task) deps

/-- `DAGSpec.process_tasks` (lines 196-220): collect every task's source,
call the static-analysis boundary (its two result maps are the
parameters `upMap`/`prodMap`), build and register every task while
remembering its upstream identifiers, and only after every task is
registered wire each registered step to the already-registered step of
each remembered identifier. -/
def process_tasks (tasks : List PyDict) (dag_spec : PyDict)
    (upMap prodMap : List (PyVal × PyVal)) : Except PyErr Graph := do
  let _sources ← exceptMap (fun td =>
    match dictLookup td "source" with
    | Option.some v => pure v
    | Option.none => Except.error (PyErr.keyError "source")) tasks
  let infer ← metaItem dag_spec "infer_upstream"
  let extract ← metaItem dag_spec "extract_product"
  let pairs ← exceptMap (buildOne dag_spec infer extract upMap prodMap) tasks
  let dagSteps := pairs.foldl (fun d p => dagSet d p.1.name p.1) []
  let edgess ← exceptMap (wireTask pairs dagSteps)
    (dagSteps.map (fun kv => kv.2))
  pure { steps := dagSteps,
         edges := edgess.flatten,
         trace := pairs.map (fun p => BuildEvent.register p.1.name) ++
           edgess.flatten.map (fun e => BuildEvent.wire e.1 e.2) }

end DAGSpecM

instance : Inhabited PyVal := ⟨PyVal.none⟩

instance : Inhabited TaskDictM.Product := ⟨⟨PyVal.none, PyVal.none, Option.none⟩⟩

instance : Inhabited TaskDictM.ProductRes := ⟨TaskDictM.ProductRes.single default⟩

instance : Inhabited TaskDictM.Task :=
  ⟨⟨PyVal.none, PyVal.none, PyVal.none, default, []⟩⟩

/-- The list an embedded value iterates to, with a default for the
non-iterable error case (used when iteration is known to succeed). -/
def pyIterD (v : PyVal) : List PyVal :=
  match DAGSpecM.pyIter v with
  | Except.ok l => l
  | Except.error _ => []

/-- Concrete source file for the round-trip preservation analysis: a
two-line function immediately followed by executable top-level code. -/
def c1_file : Chars := "def f():\n    x = 1\ny = 2\nz = 3\n".data

/-- The notebook cells of a session over `c1_file` read back exactly as
written at session start (the papermill-injected parameters cell, the
imports cell, the imports-new placeholder comment cell, and one cell per
body statement, de-indented). -/
def c1_cells : List Interact.Cell :=
  [⟨"code".data, ["injected-parameters".data], "product = None".data⟩,
   ⟨"code".data, ["imports".data], "\nfrom mod import g".data⟩,
   ⟨"code".data, ["imports-new".data],
     "# Use this cell to include any imports that you want to save back\n# to the top of the module, comments will be ignored".data⟩,
   ⟨"code".data, [], "x = 1".data⟩]

/-- What the exit rewrite actually produces on `c1_file`: the line
`y = 2` outside the function's range is replaced by a blank line. -/
def c1_out : Chars := "def f():\n    x = 1\n\nz = 3\n".data

/-- A concrete session state whose source file changed while the session
was open. -/
def c2_state : Interact.EditorState :=
  { snapshot := "def f():\n    pass\n".data,
    fileText := "def f():\n    pass\n# edited externally\n".data,
    tmpCells := [],
    tmpExists := true,
    pathToSource := "/tmp/mod.py".data,
    fnName := "f".data,
    tmpPath := "/tmp/mod-tmp.ipynb".data,
    fnStarts := 1,
    fnEnds := 3,
    bodyStart := 0 }

/-- An untagged code cell whose source begins with a comment line that is
not a bare hash. -/
def c3_cell : Interact.Cell := ⟨"code".data, [], "# keep me\nx = 1".data⟩

/-- A task mapping carrying a `product` key whose value is `None`. -/
def c4_data : PyDict := [("source", PyVal.str "a.py"), ("product", PyVal.none)]

/-- A meta mapping with product extraction enabled. -/
def c4_meta : PyDict :=
  [("extract_product", PyVal.bool true), ("extract_upstream", PyVal.bool false)]

/-- A task mapping that carries an explicit `upstream` key (and an
explicit `product` key) while inference is enabled. -/
def c9_task : PyDict :=
  [("source", PyVal.str "a.py"), ("upstream", PyVal.str "b"),
   ("product", PyVal.str "out.csv")]

/-- A pipeline specification enabling upstream inference. -/
def c9_spec : PyDict :=
  [("meta", PyVal.dict
    [("infer_upstream", PyVal.bool true), ("extract_product", PyVal.bool false)])]

/-- The inferred-upstream map returned by the static-analysis boundary
for `c9_task`. -/
def c9_upmap : List (PyVal × PyVal) := [(PyVal.str "a.py", PyVal.list [])]

/-- The step that `process_tasks` builds from the violating `c9_task`. -/
def c9_expected_task : TaskDictM.Task :=
  { cls := PyVal.str "NotebookRunner",
    source := PyVal.str "a.py",
    name := PyVal.str "a.py",
    product := TaskDictM.ProductRes.single
      ⟨PyVal.str "File", PyVal.str "out.csv", Option.none⟩,
    params := [] }

/-- A task with one upstream dependency, for the two-pass wiring
witness. -/
def c8_taskA : PyDict :=
  [("source", PyVal.str "a.py"), ("product", PyVal.str "a.csv"),
   ("upstream", PyVal.str "b.py")]

/-- The task `c8_taskA` depends on. -/
def c8_taskB : PyDict :=
  [("source", PyVal.str "b.py"), ("product", PyVal.str "b.csv")]

/-- A pipeline specification with inference and extraction disabled. -/
def c8_spec : PyDict :=
  [("meta", PyVal.dict
    [("infer_upstream", PyVal.bool false), ("extract_product", PyVal.bool false)])]

/-- The step built from `c8_taskA`. -/
def c8_stepA : TaskDictM.Task :=
  { cls := PyVal.str "NotebookRunner", source := PyVal.str "a.py",
    name := PyVal.str "a.py",
    product := TaskDictM.ProductRes.single
      ⟨PyVal.str "File", PyVal.str "a.csv", Option.none⟩,
    params := [] }

/-- The step built from `c8_taskB`. -/
def c8_stepB : TaskDictM.Task :=
  { cls := PyVal.str "NotebookRunner", source := PyVal.str "b.py",
    name := PyVal.str "b.py",
    product := TaskDictM.ProductRes.single
      ⟨PyVal.str "File", PyVal.str "b.csv", Option.none⟩,
    params := [] }

/-- The graph built from `[c8_taskA, c8_taskB]`. -/
def c8_g1 : DAGSpecM.Graph :=
  { steps := [(PyVal.str "a.py", c8_stepA), (PyVal.str "b.py", c8_stepB)],
    edges := [(PyVal.str "b.py", PyVal.str "a.py")],
    trace := [DAGSpecM.BuildEvent.register (PyVal.str "a.py"),
      DAGSpecM.BuildEvent.register (PyVal.str "b.py"),
      DAGSpecM.BuildEvent.wire (PyVal.str "b.py") (PyVal.str "a.py")] }

/-- The graph built from `[c8_taskB, c8_taskA]`. -/
def c8_g2 : DAGSpecM.Graph :=
  { steps := [(PyVal.str "b.py", c8_stepB), (PyVal.str "a.py", c8_stepA)],
    edges := [(PyVal.str "b.py", PyVal.str "a.py")],
    trace := [DAGSpecM.BuildEvent.register (PyVal.str "b.py"),
      DAGSpecM.BuildEvent.register (PyVal.str "a.py"),
      DAGSpecM.BuildEvent.wire (PyVal.str "b.py") (PyVal.str "a.py")] }

/-!
Supporting lemmas about the embedded dictionary/graph operations and the
`Except` monad, shared by the claim theorems below.
-/

theorem dictLookup_cons (kv : String × PyVal) (d : PyDict) (k : String) :
    dictLookup (kv :: d) k = if kv.1 = k then Option.some kv.2 else dictLookup d k := by
  by_cases h : kv.1 = k
  · simp [dictLookup, List.find?, h]
  · simp [dictLookup, List.find?, h]

theorem dictLookup_dictSet_self (d : PyDict) (k : String) (v : PyVal) :
    dictLookup (dictSet d k v) k = Option.some v := by
  induction d with
  | nil => simp [dictSet, dictLookup, List.find?]
  | cons kv rest ih =>
    by_cases h : kv.1 = k
    · simp [dictSet, h, dictLookup_cons]
    · simp [dictSet, h, dictLookup_cons, ih]

theorem dictLookup_dictSet_ne (d : PyDict) (k k' : String) (v : PyVal)
    (h : k ≠ k') : dictLookup (dictSet d k v) k' = dictLookup d k' := by
  induction d with
  | nil => simp [dictSet, dictLookup_cons, h, dictLookup]
  | cons kv rest ih =>
    by_cases hk : kv.1 = k
    · simp [dictSet, hk, dictLookup_cons, h, hk ▸ h]
    · simp [dictSet, hk, dictLookup_cons, ih]

theorem dictSet_dictSet_self (d : PyDict) (k : String) (v w : PyVal) :
    dictSet (dictSet d k v) k w = dictSet d k w := by
  induction d with
  | nil => simp [dictSet]
  | cons kv rest ih =>
    by_cases h : kv.1 = k
    · simp [dictSet, h]
    · simp [dictSet, h, ih]

theorem dictLookup_dictErase_ne (d : PyDict) (k k' : String) (h : k ≠ k') :
    dictLookup (dictErase d k) k' = dictLookup d k' := by
  induction d with
  | nil => rfl
  | cons kv rest ih =>
    by_cases hk : kv.1 = k
    · rw [dictErase, List.filter_cons_of_neg (by simp [hk]), dictLookup_cons,
        if_neg (by rw [hk]; exact h), ← dictErase]
      exact ih
    · rw [dictErase, List.filter_cons_of_pos (by simp [hk]), dictLookup_cons,
        dictLookup_cons, ← dictErase, ih]

theorem dictContains_eq_false_iff (d : PyDict) (k : String) :
    dictContains d k = false ↔ dictLookup d k = Option.none := by
  cases h : dictLookup d k <;> simp [dictContains, h]

theorem dictErase_of_lookup_none (d : PyDict) (k : String)
    (h : dictLookup d k = Option.none) : dictErase d k = d := by
  have h0 : List.find? (fun kv => kv.1 = k) d = Option.none := by
    cases hf : List.find? (fun kv => kv.1 = k) d with
    | none => rfl
    | some kv =>
      rw [dictLookup, hf] at h
      simp at h
  refine List.filter_eq_self.mpr ?_
  intro kv hm
  have h2 := List.find?_eq_none.mp h0 kv hm
  simp only [decide_eq_true_eq] at h2
  simpa using h2

theorem list_contains_iff_mem {α : Type} [BEq α] [LawfulBEq α]
    (l : List α) (a : α) : l.contains a = true ↔ a ∈ l :=
  ⟨fun h => List.mem_of_elem_eq_true h, fun h => List.elem_eq_true_of_mem h⟩

theorem exceptBind_ok {ε α β : Type} (x : Except ε α) (f : α → Except ε β) (b : β) :
    (x >>= f) = Except.ok b ↔ ∃ a, x = Except.ok a ∧ f a = Except.ok b := by
  cases x with
  | ok a => simp [Bind.bind, Except.bind]
  | error e => simp [Bind.bind, Except.bind]

theorem exceptMap_ok_iff {ε α β : Type} (F : α → Except ε β) :
    ∀ (l : List α) (ys : List β),
      exceptMap F l = Except.ok ys ↔ List.Forall₂ (fun a b => F a = Except.ok b) l ys
  | [], ys => by
    simp [exceptMap, List.forall₂_nil_left_iff, eq_comm]
  | a :: l, ys => by
    rw [exceptMap]
    constructor
    · intro h
      rcases (exceptBind_ok _ _ _).mp h with ⟨b, hb, h2⟩
      rcases (exceptBind_ok _ _ _).mp h2 with ⟨bs, hbs, h3⟩
      have hys : ys = b :: bs := by
        simpa [pure, Except.pure] using h3.symm
      subst hys
      exact List.Forall₂.cons hb ((exceptMap_ok_iff F l bs).mp hbs)
    · intro h
      rcases List.forall₂_cons_left_iff.mp h with ⟨b, bs, hb, hbs, hys⟩
      subst hys
      rw [hb, (exceptMap_ok_iff F l bs).mpr hbs]
      simp [Bind.bind, Except.bind, pure, Except.pure]

theorem exceptMap_map {ε α β : Type} (F : α → Except ε β) (g : α → β) :
    ∀ (l : List α), (∀ a ∈ l, F a = Except.ok (g a)) →
      exceptMap F l = Except.ok (l.map g)
  | [], _ => by simp [exceptMap]
  | a :: l, h => by
    rw [exceptMap, h a (List.mem_cons_self a l),
      exceptMap_map F g l (fun x hx => h x (List.mem_cons_of_mem a hx))]
    simp [Bind.bind, Except.bind, pure, Except.pure]

theorem forall₂_eq_map {α β : Type} {R : α → β → Prop} {g : α → β}
    (hfun : ∀ a b, R a b → b = g a) :
    ∀ {xs : List α} {ys : List β}, List.Forall₂ R xs ys → ys = xs.map g := by
  intro xs ys h
  induction h with
  | nil => rfl
  | cons h1 _ ih => simp [hfun _ _ h1, ih]

theorem forall₂_mem_left {α β : Type} {R : α → β → Prop} :
    ∀ {xs : List α} {ys : List β}, List.Forall₂ R xs ys →
      ∀ x ∈ xs, ∃ y, R x y := by
  intro xs ys h
  induction h with
  | nil => intro x hx; exact absurd hx (List.not_mem_nil x)
  | cons h1 _ ih =>
    intro x hx
    rcases List.mem_cons.mp hx with h' | h'
    · exact ⟨_, h' ▸ h1⟩
    · exact ih x h'

theorem splitlines_cons_nl (s : Chars) :
    splitlinesChars ('\n' :: s) = [] :: splitlinesChars s := by
  simp [splitlinesChars]

theorem splitlines_cons_of_ne (c : Char) (s : Chars) (hc : c ≠ '\n') :
    splitlinesChars (c :: s) =
      match splitlinesChars s with
      | [] => [[c]]
      | l :: ls => (c :: l) :: ls := by
  simp [splitlinesChars, hc]

theorem splitlines_append_nl (t : Chars) :
    ∀ l : Chars, '\n' ∉ l →
      splitlinesChars (l ++ '\n' :: t) = l :: splitlinesChars t
  | [], _ => by simp [splitlines_cons_nl]
  | c :: l, h => by
    have hc : c ≠ '\n' := fun hh => h (hh ▸ List.mem_cons_self c l)
    have ih := splitlines_append_nl t l (fun hm => h (List.mem_cons_of_mem c hm))
    rw [List.cons_append, splitlines_cons_of_ne c _ hc, ih]

theorem splitlines_single :
    ∀ l : Chars, '\n' ∉ l → l ≠ [] → splitlinesChars l = [l]
  | [], _, hne => absurd rfl hne
  | c :: l, h, _ => by
    have hc : c ≠ '\n' := fun hh => h (hh ▸ List.mem_cons_self c l)
    by_cases hl : l = []
    · subst hl
      rw [splitlines_cons_of_ne c _ hc]
      rfl
    · have ih := splitlines_single l (fun hm => h (List.mem_cons_of_mem c hm)) hl
      rw [splitlines_cons_of_ne c _ hc, ih]

theorem splitlines_join :
    ∀ ls : List Chars, (∀ l ∈ ls, '\n' ∉ l) → ls.getLast? ≠ Option.some [] →
      splitlinesChars (joinLines ls) = ls
  | [], _, _ => by simp [joinLines, splitlinesChars]
  | [l], h, hlast => by
    have hne : l ≠ [] := by
      intro hh
      exact hlast (by simp [hh])
    simpa [joinLines] using splitlines_single l (h l (by simp)) hne
  | l :: l' :: ls, h, hlast => by
    have h1 : '\n' ∉ l := h l (by simp)
    have ih := splitlines_join (l' :: ls)
      (fun x hx => h x (List.mem_cons_of_mem l hx))
      (by simpa [List.getLast?_cons_cons] using hlast)
    show splitlinesChars (l ++ '\n' :: joinLines (l' :: ls)) = l :: l' :: ls
    rw [splitlines_append_nl _ l h1, ih]

theorem nl_not_mem_splitlines :
    ∀ s : Chars, ∀ l ∈ splitlinesChars s, '\n' ∉ l
  | [], l, hl => by simp [splitlinesChars] at hl
  | c :: s, l, hl => by
    by_cases hc : c = '\n'
    · subst hc
      rw [splitlines_cons_nl] at hl
      rcases List.mem_cons.mp hl with h | h
      · simp [h]
      · exact nl_not_mem_splitlines s l h
    · rw [splitlines_cons_of_ne c _ hc] at hl
      cases hs : splitlinesChars s with
      | nil =>
        rw [hs] at hl
        simp only [List.mem_singleton] at hl
        subst hl
        simp only [List.mem_singleton]
        exact fun hh => hc hh.symm
      | cons p ps =>
        rw [hs] at hl
        rcases List.mem_cons.mp hl with h | h
        · subst h
          intro hm
          rcases List.mem_cons.mp hm with h' | h'
          · exact hc h'.symm
          · exact nl_not_mem_splitlines s p (by simp [hs]) h'
        · exact nl_not_mem_splitlines s l (by simp [hs, h])

theorem splitlines_ne_nil : ∀ s : Chars, s ≠ [] → splitlinesChars s ≠ []
  | [], h => absurd rfl h
  | c :: s, _ => by
    by_cases hc : c = '\n'
    · subst hc
      simp [splitlines_cons_nl]
    · rw [splitlines_cons_of_ne c _ hc]
      cases splitlinesChars s <;> simp

theorem dagLookup_cons (kv : PyVal × TaskDictM.Task)
    (d : List (PyVal × TaskDictM.Task)) (k : PyVal) :
    DAGSpecM.dagLookup (kv :: d) k =
      if kv.1 = k then Option.some kv.2 else DAGSpecM.dagLookup d k := by
  by_cases h : kv.1 = k
  · simp [DAGSpecM.dagLookup, List.find?, h]
  · simp [DAGSpecM.dagLookup, List.find?, h]

theorem dagLookup_eq_none_iff (d : List (PyVal × TaskDictM.Task)) (k : PyVal) :
    DAGSpecM.dagLookup d k = Option.none ↔ k ∉ d.map Prod.fst := by
  induction d with
  | nil => simp [DAGSpecM.dagLookup]
  | cons kv rest ih =>
    rw [dagLookup_cons]
    by_cases h : kv.1 = k
    · simp [h]
    · have hk : ¬ k = kv.1 := fun hh => h hh.symm
      rw [if_neg h, ih]
      simp [not_or, hk]

theorem dagLookup_isSome_iff (d : List (PyVal × TaskDictM.Task)) (k : PyVal) :
    (DAGSpecM.dagLookup d k).isSome = true ↔ k ∈ d.map Prod.fst := by
  cases hl : DAGSpecM.dagLookup d k with
  | none => simpa using (dagLookup_eq_none_iff d k).mp hl
  | some v =>
    simp only [Option.isSome_some, true_iff]
    by_contra hm
    rw [(dagLookup_eq_none_iff d k).mpr hm] at hl
    exact Option.noConfusion hl

theorem dagSet_eq_append (d : List (PyVal × TaskDictM.Task)) (k : PyVal)
    (v : TaskDictM.Task) (h : DAGSpecM.dagLookup d k = Option.none) :
    DAGSpecM.dagSet d k v = d ++ [(k, v)] := by
  induction d with
  | nil => rfl
  | cons kv rest ih =>
    rw [dagLookup_cons] at h
    by_cases hk : kv.1 = k
    · rw [if_pos hk] at h
      exact absurd h (by simp)
    · rw [if_neg hk] at h
      simp [DAGSpecM.dagSet, hk, ih h]

theorem dagSet_length_le (d : List (PyVal × TaskDictM.Task)) (k : PyVal)
    (v : TaskDictM.Task) : (DAGSpecM.dagSet d k v).length ≤ d.length + 1 := by
  induction d with
  | nil => simp [DAGSpecM.dagSet]
  | cons kv rest ih =>
    by_cases hk : kv.1 = k
    · simp [DAGSpecM.dagSet, hk]
    · simp only [DAGSpecM.dagSet, if_neg hk, List.length_cons]
      omega

theorem dagSet_length_of_isSome (d : List (PyVal × TaskDictM.Task)) (k : PyVal)
    (v : TaskDictM.Task) (h : (DAGSpecM.dagLookup d k).isSome = true) :
    (DAGSpecM.dagSet d k v).length = d.length := by
  induction d with
  | nil => simp [DAGSpecM.dagLookup] at h
  | cons kv rest ih =>
    rw [dagLookup_cons] at h
    by_cases hk : kv.1 = k
    · simp [DAGSpecM.dagSet, hk]
    · rw [if_neg hk] at h
      simp only [DAGSpecM.dagSet, if_neg hk, List.length_cons, ih h]

theorem regFold_length_le :
    ∀ (ps : List (TaskDictM.Task × PyVal)) (acc : List (PyVal × TaskDictM.Task)),
      (ps.foldl (fun d p => DAGSpecM.dagSet d p.1.name p.1) acc).length ≤
        acc.length + ps.length
  | [], acc => by simp
  | p :: ps, acc => by
    simp only [List.foldl_cons, List.length_cons]
    have h := regFold_length_le ps (DAGSpecM.dagSet acc p.1.name p.1)
    have h2 := dagSet_length_le acc p.1.name p.1
    omega

theorem regFold_eq_of_length :
    ∀ (ps : List (TaskDictM.Task × PyVal)) (acc : List (PyVal × TaskDictM.Task)),
      (ps.foldl (fun d p => DAGSpecM.dagSet d p.1.name p.1) acc).length =
        acc.length + ps.length →
      ps.foldl (fun d p => DAGSpecM.dagSet d p.1.name p.1) acc =
        acc ++ ps.map (fun p => (p.1.name, p.1))
  | [], acc, _ => by simp
  | p :: ps, acc, h => by
    simp only [List.foldl_cons, List.length_cons] at h ⊢
    cases hl : DAGSpecM.dagLookup acc p.1.name with
    | some _ =>
      have hlen := dagSet_length_of_isSome acc p.1.name p.1 (by simp [hl])
      have hle := regFold_length_le ps (DAGSpecM.dagSet acc p.1.name p.1)
      rw [hlen] at hle
      omega
    | none =>
      have happ := dagSet_eq_append acc p.1.name p.1 hl
      rw [happ] at h ⊢
      have hrec := regFold_eq_of_length ps (acc ++ [(p.1.name, p.1)]) (by
        simp only [List.length_append, List.length_singleton] at h ⊢
        omega)
      rw [hrec]
      simp

theorem regFold_of_nodup :
    ∀ (ps : List (TaskDictM.Task × PyVal)) (acc : List (PyVal × TaskDictM.Task)),
      (acc.map Prod.fst ++ ps.map (fun p => p.1.name)).Nodup →
      ps.foldl (fun d p => DAGSpecM.dagSet d p.1.name p.1) acc =
        acc ++ ps.map (fun p => (p.1.name, p.1))
  | [], acc, _ => by simp
  | p :: ps, acc, h => by
    have hdis := (List.nodup_append.mp h).2.2
    have hnin : p.1.name ∉ acc.map Prod.fst := by
      intro hm
      exact hdis hm (List.mem_cons_self _ _)
    have hl : DAGSpecM.dagLookup acc p.1.name = Option.none :=
      (dagLookup_eq_none_iff acc p.1.name).mpr hnin
    rw [List.foldl_cons, dagSet_eq_append acc p.1.name p.1 hl]
    have hrec := regFold_of_nodup ps (acc ++ [(p.1.name, p.1)]) (by
      have : (acc ++ [(p.1.name, p.1)]).map Prod.fst ++
          ps.map (fun p => p.1.name) =
          acc.map Prod.fst ++ (p.1.name :: ps.map (fun p => p.1.name)) := by
        simp
      rw [this]
      exact h)
    rw [hrec]
    simp

theorem find_fst_eq_self {A B : Type} [DecidableEq A] :
    ∀ (l : List (A × B)) (p : A × B), (l.map Prod.fst).Nodup → p ∈ l →
      l.find? (fun q => q.1 = p.1) = Option.some p
  | [], p, _, hm => absurd hm (List.not_mem_nil p)
  | q :: l, p, hn, hm => by
    by_cases hq : q.1 = p.1
    · rcases List.mem_cons.mp hm with h | h
      · subst h
        exact List.find?_cons_of_pos _ (by simp)
      · exfalso
        have hmem : p.1 ∈ l.map Prod.fst := List.mem_map_of_mem Prod.fst h
        exact (List.nodup_cons.mp (by simpa using hn)).1 (hq ▸ hmem)
    · rcases List.mem_cons.mp hm with h | h
      · exact absurd (h ▸ rfl) (h ▸ hq)
      · rw [List.find?_cons_of_neg _ (by simp [hq])]
        exact find_fst_eq_self l p (List.nodup_cons.mp (by simpa using hn)).2 h

theorem splitlines_getLast_ne_nil :
    ∀ s : Chars, s.getLast? ≠ Option.some '\n' →
      (splitlinesChars s).getLast? ≠ Option.some []
  | [], _ => by simp [splitlinesChars]
  | [c], h => by
    have hc : c ≠ '\n' := by simpa using h
    simp [splitlinesChars, hc]
  | c :: c2 :: s, h => by
    have h' : (c2 :: s).getLast? ≠ Option.some '\n' := by
      simpa [List.getLast?_cons_cons] using h
    have ih := splitlines_getLast_ne_nil (c2 :: s) h'
    have hne := splitlines_ne_nil (c2 :: s) (by simp)
    by_cases hc : c = '\n'
    · subst hc
      cases hsp : splitlinesChars (c2 :: s) with
      | nil => exact absurd hsp hne
      | cons p ps =>
        rw [hsp] at ih
        rw [splitlines_cons_nl, hsp, List.getLast?_cons_cons]
        exact ih
    · cases hsp : splitlinesChars (c2 :: s) with
      | nil => exact absurd hsp hne
      | cons p ps =>
        rw [hsp] at ih
        rw [splitlines_cons_of_ne c _ hc, hsp]
        cases ps with
        | nil => simp
        | cons q qs =>
          rw [List.getLast?_cons_cons]
          rw [List.getLast?_cons_cons] at ih
          exact ih

/-!
The claims.
-/

set_option maxRecDepth 20000

/-- C1 (code bug): for the source file `c1_file`, whose function occupies
1-based lines 1-2 (`lines_num_limits = (1, 3)`, `body_start = 0`) and is
immediately followed by the top-level line `y = 2`, an unedited session's
exit rewrite does NOT leave every byte outside the function's line range
unchanged: the output is `c1_out`, in which the line `y = 2` no longer
occurs, because the footer slice `content_lines[fn_ends:]` with the
1-based `fn_ends` of `inspect.getsourcelines` skips the first line after
the function. -/
theorem claim_C1 :
    Interact.overwrite_from_nb c1_file 1 3 0 c1_cells = Option.some c1_out ∧
    "y = 2".data ∈ splitlinesChars c1_file ∧
    "y = 2".data ∉ splitlinesChars c1_out ∧
    c1_file.getLast? = Option.some '\n' ∧
    c1_out.getLast? = Option.some '\n' := by
  decide

/-- C2: whenever the source file's text at exit differs from the entry
snapshot, `__exit__` raises the corruption error, whose message embeds
the source-file path, the callable's name and the temporary notebook
path; the session state is left untouched, so the source file is not
rewritten and the temporary notebook remains on disk. -/
theorem claim_C2 (st : Interact.EditorState)
    (h : st.fileText ≠ st.snapshot) :
    Interact.exitStep st =
      (st, Option.some (Interact.ExitErr.corruption
        (Interact.corruption_message st.pathToSource st.fnName st.tmpPath))) ∧
    (Interact.exitStep st).1.fileText = st.fileText ∧
    (Interact.exitStep st).1.tmpExists = st.tmpExists ∧
    ∃ a b c : Chars,
      Interact.corruption_message st.pathToSource st.fnName st.tmpPath =
        a ++ st.pathToSource ++ b ++ st.fnName ++ c ++ st.tmpPath := by
  have hne : st.snapshot ≠ st.fileText := fun hh => h hh.symm
  refine ⟨?_, ?_, ?_, ?_⟩
  · simp [Interact.exitStep, hne]
  · simp [Interact.exitStep, hne]
  · simp [Interact.exitStep, hne]
  · refine ⟨"File \"".data, "\" (where callable \"".data,
      "\" is defined) changed while editing the function in the notebook app. This might lead to corrupted source files. Changes from the notebook were not saved back to the module. Notebook available at \"".data, ?_⟩
    simp only [Interact.corruption_message, List.append_assoc]

/-- Witness for C2 at the concrete session state `c2_state`. -/
theorem claim_C2_witness :
    c2_state.fileText ≠ c2_state.snapshot ∧
    (Interact.exitStep c2_state =
      (c2_state, Option.some (Interact.ExitErr.corruption
        (Interact.corruption_message c2_state.pathToSource c2_state.fnName
          c2_state.tmpPath))) ∧
    (Interact.exitStep c2_state).1.fileText = c2_state.fileText ∧
    (Interact.exitStep c2_state).1.tmpExists = c2_state.tmpExists ∧
    ∃ a b c : Chars,
      Interact.corruption_message c2_state.pathToSource c2_state.fnName
          c2_state.tmpPath =
        a ++ c2_state.pathToSource ++ b ++ c2_state.fnName ++ c ++ c2_state.tmpPath) :=
  ⟨by decide, claim_C2 c2_state (by decide)⟩

/-- Counterexample to C3 as stated: the untagged code cell `c3_cell`,
whose source begins with the comment line `# keep me`, is kept (spliced)
by `keep_cell` even though the claim says a cell whose source begins
with a comment line is not spliced. -/
theorem claim_C3_counterexample :
    Interact.keep_cell c3_cell = true ∧
    ((splitlinesChars c3_cell.source).headD []).take 1 = ['#'] ∧
    Interact.spec_keep_cell c3_cell = false := by
  decide

/-- C3 (amended): a cell of the read-back document is spliced into the
rewritten body iff it is a code cell, carries none of the tags
injected-parameters/imports/imports-new, and its source does not start
with the two characters `#` and newline (a bare `#` first line) — not
"does not begin with a comment line"; every kept cell is re-indented by
one 4-space level (each non-empty line gains the prefix four spaces,
blank lines stay blank); and the rewrite depends on the cells only
through the kept cells' sources and the imports-new cell. -/
theorem claim_C3 :
    (∀ c : Interact.Cell,
      Interact.keep_cell c = true ↔
        (c.cell_type = "code".data ∧ (∀ t ∈ c.tags, t ∉ Interact.tmpTags) ∧
          c.source.take 2 ≠ "#\n".data)) ∧
    (∀ s : Chars, s.getLast? ≠ Option.some '\n' →
      splitlinesChars (Interact.indent_cell s) =
        (splitlinesChars s).map Interact.indent_line) ∧
    (∀ (content : Chars) (fs fe bs : Nat) (cells cells' : List Interact.Cell),
      (cells.filter Interact.keep_cell).map (fun c => c.source) =
        (cells'.filter Interact.keep_cell).map (fun c => c.source) →
      Interact.get_imports_new_source cells =
        Interact.get_imports_new_source cells' →
      Interact.overwrite_from_nb content fs fe bs cells =
        Interact.overwrite_from_nb content fs fe bs cells') := by
  refine ⟨?_, ?_, ?_⟩
  · intro c
    simp only [Interact.keep_cell, Bool.and_eq_true, beq_iff_eq, bne_iff_ne,
      Bool.not_eq_true', List.any_eq_false, list_contains_iff_mem]
    tauto
  · intro s h
    have hpieces : ∀ l ∈ (splitlinesChars s).map Interact.indent_line, '\n' ∉ l := by
      intro l hl
      rcases List.mem_map.mp hl with ⟨l0, hm, rfl⟩
      have h0 := nl_not_mem_splitlines s l0 hm
      by_cases h0e : l0 = []
      · simp [Interact.indent_line, h0e]
      · simp only [Interact.indent_line, if_pos (by simpa using h0e)]
        intro hmem
        rcases List.mem_append.mp hmem with hm1 | hm1
        · exact absurd hm1 (by decide)
        · exact h0 hm1
    have hlast : ((splitlinesChars s).map Interact.indent_line).getLast? ≠
        Option.some [] := by
      rw [List.getLast?_map]
      intro hh
      rcases Option.map_eq_some'.mp hh with ⟨l0, hl0, hind⟩
      by_cases h0e : l0 = []
      · exact splitlines_getLast_ne_nil s h (h0e ▸ hl0)
      · rw [Interact.indent_line, if_pos (by simpa using h0e)] at hind
        exact absurd hind (by simp)
    exact splitlines_join _ hpieces hlast
  · intro content fs fe bs cells cells' h1 h2
    have hcc : (cells.filter Interact.keep_cell).map
        (fun c => Interact.indent_cell c.source) =
      (cells'.filter Interact.keep_cell).map
        (fun c => Interact.indent_cell c.source) := by
      have h3 := congrArg (List.map Interact.indent_cell) h1
      simpa [List.map_map, Function.comp] using h3
    simp only [Interact.overwrite_from_nb, hcc, h2]

/-- Witness for C3: the amended splicing rule evaluated at `c3_cell`, the
re-indentation law at a concrete two-line source, and the
cells-extensionality of the rewrite at two cell lists with equal kept
content. -/
theorem claim_C3_witness :
    (Interact.keep_cell c3_cell = true ↔
      (c3_cell.cell_type = "code".data ∧
        (∀ t ∈ c3_cell.tags, t ∉ Interact.tmpTags) ∧
        c3_cell.source.take 2 ≠ "#\n".data)) ∧
    splitlinesChars (Interact.indent_cell "x = 1\n\ny = 2".data) =
      (splitlinesChars "x = 1\n\ny = 2".data).map Interact.indent_line ∧
    Interact.overwrite_from_nb c1_file 1 3 0
        [⟨"code".data, ["imports".data], "import math".data⟩] =
      Interact.overwrite_from_nb c1_file 1 3 0 [] :=
  ⟨claim_C3.1 c3_cell,
   claim_C3.2.1 "x = 1\n\ny = 2".data (by decide),
   claim_C3.2.2 c1_file 1 3 0 _ _ (by decide) (by decide)⟩

/-- Counterexample to C4 as stated: with extraction enabled, the task
mapping `c4_data` carries an explicit `product` key (with value `None`),
yet `TaskDict.validate` succeeds, because the source tests
`self.data.get('product')` for truthiness rather than key presence. -/
theorem claim_C4_counterexample :
    dictContains c4_data "product" = true ∧
    dictLookup c4_meta "extract_product" = Option.some (PyVal.bool true) ∧
    TaskDictM.validate c4_data c4_meta = Except.ok () := by
  decide

/-- C4 (amended): construction fails with a Validation error when the
`source` key is absent, and, when `meta.extract_product` is falsy, also
when the `product` key is absent; when `extract_product` is truthy, an
explicit `product` key is rejected only if its value is truthy — a
present-but-falsy `product` value passes validation. -/
theorem claim_C4 (data meta : PyDict) (ep : PyVal)
    (hep : dictLookup meta "extract_product" = Option.some ep) :
    (dictContains data "source" = false →
      ∃ m, TaskDictM.validate data meta = Except.error (PyErr.valueError m)) ∧
    (ep.truthy = false → dictContains data "product" = false →
      ∃ m, TaskDictM.validate data meta = Except.error (PyErr.valueError m)) ∧
    (∀ eu, dictLookup meta "extract_upstream" = Option.some eu →
      (eu.truthy && (dictGet data "upstream").truthy) = false →
      dictContains data "source" = true →
      ep.truthy = true →
      ((dictGet data "product").truthy = true →
        TaskDictM.validate data meta =
          Except.error (PyErr.valueError (TaskDictM.extractProductMsg data))) ∧
      ((dictGet data "product").truthy = false →
        TaskDictM.validate data meta = Except.ok ())) := by
  refine ⟨?_, ?_, ?_⟩
  · intro hsrc
    refine ⟨"Error validating task spec: missing required keys in " ++
      (PyVal.dict data).pyRepr, ?_⟩
    by_cases hept : ep.truthy = true
    · simp [TaskDictM.validate, hep, hept, TaskDictM.validateKeys, hsrc,
        Bind.bind, Except.bind, pure, Except.pure]
    · simp [TaskDictM.validate, hep, Bool.eq_false_iff.mpr hept,
        TaskDictM.validateKeys, hsrc, Bind.bind, Except.bind, pure, Except.pure]
  · intro hept hprod
    refine ⟨"Error validating task spec: missing required keys in " ++
      (PyVal.dict data).pyRepr, ?_⟩
    simp [TaskDictM.validate, hep, hept, TaskDictM.validateKeys, hprod,
      Bind.bind, Except.bind, pure, Except.pure]
  · intro eu heu hviol hsrc hept
    constructor
    · intro hpt
      simp [TaskDictM.validate, hep, hept, TaskDictM.validateKeys, hsrc, heu,
        hviol, hpt, Bind.bind, Except.bind, pure, Except.pure]
    · intro hpf
      simp [TaskDictM.validate, hep, hept, TaskDictM.validateKeys, hsrc, heu,
        hviol, hpf, Bind.bind, Except.bind, pure, Except.pure]

/-- Witness for C4: with extraction enabled and a truthy explicit product,
validation fails with the extract-product Validation error. -/
theorem claim_C4_witness :
    TaskDictM.validate
        [("source", PyVal.str "a.py"), ("product", PyVal.str "out.csv")] c4_meta =
      Except.error (PyErr.valueError (TaskDictM.extractProductMsg
        [("source", PyVal.str "a.py"), ("product", PyVal.str "out.csv")])) :=
  ((claim_C4 _ c4_meta (PyVal.bool true) (by decide)).2.2 (PyVal.bool false)
      (by decide) (by decide) (by decide) (by decide)).1 (by decide)

/-- C5: in `_init_product`'s class resolution, an explicit per-task
`product_class` key always wins (the meta default is not consulted for
the result); otherwise a truthy
`meta.product_default_class.<task class name>` is used; when neither is
set (the key absent and the meta lookup falsy or missing), resolution —
and hence product materialization — fails with the
missing-product-class ValueError, whose message embeds the task
mapping. -/
theorem claim_C5 (td meta : PyDict) (cn : String) (mv : Option PyVal)
    (hmv : TaskDictM.get_value_at meta ("product_default_class." ++ cn) =
      Except.ok mv) :
    (dictContains td "product_class" = true →
      TaskDictM.resolveProductClass td meta cn =
        Except.ok ((dictLookup td "product_class").getD PyVal.none,
          dictErase td "product_class")) ∧
    (dictContains td "product_class" = false →
      (mv.getD PyVal.none).truthy = true →
      TaskDictM.resolveProductClass td meta cn =
        Except.ok (mv.getD PyVal.none, td)) ∧
    (dictContains td "product_class" = false →
      (mv.getD PyVal.none).truthy = false →
      TaskDictM.resolveProductClass td meta cn =
        Except.error (PyErr.valueError (TaskDictM.missingProductClassMsg td)) ∧
      ∃ a b, TaskDictM.missingProductClassMsg td =
        a ++ (PyVal.dict td).pyStr ++ b) ∧
    (∀ (tcls pv : PyVal) (lf : PyVal → PyVal) (rf : String → String),
      dictLookup td "product" = Option.some pv →
      TaskDictM.get_value_at meta
        ("product_default_class." ++ TaskDictM.classNameOf tcls) =
          Except.ok mv →
      dictContains (dictErase td "product") "product_class" = false →
      (mv.getD PyVal.none).truthy = false →
      TaskDictM._init_product td meta tcls lf rf =
        Except.error (PyErr.valueError
          (TaskDictM.missingProductClassMsg (dictErase td "product")))) := by
  refine ⟨?_, ?_, ?_, ?_⟩
  · intro hc
    simp [TaskDictM.resolveProductClass, hmv, hc, dictPop,
      Bind.bind, Except.bind, pure, Except.pure]
  · intro hc ht
    simp [TaskDictM.resolveProductClass, hmv, hc, ht,
      Bind.bind, Except.bind, pure, Except.pure]
  · intro hc ht
    refine ⟨?_, "Could not determine a product class for task: \"", ?_⟩
    · simp [TaskDictM.resolveProductClass, hmv, hc, ht,
        Bind.bind, Except.bind, pure, Except.pure]
    · exact ⟨"\". Add an explicity value in the \"product_class\" key or provide a default value in meta.product_default_class by setting the key to the applicable task class", by
        simp [TaskDictM.missingProductClassMsg]⟩
  · intro tcls pv lf rf hp hmv2 hc2 ht2
    simp [TaskDictM._init_product, dictPop, hp,
      TaskDictM.resolveProductClass, hmv2, hc2, ht2,
      Bind.bind, Except.bind, pure, Except.pure]

/-- Witness for C5: an explicit `product_class` beats a set meta default,
and with neither set the materialization fails naming the task. -/
theorem claim_C5_witness :
    TaskDictM.resolveProductClass
        [("product", PyVal.str "o"), ("product_class", PyVal.str "SQLiteRelation")]
        [("product_default_class", PyVal.dict [("NotebookRunner", PyVal.str "File")])]
        "NotebookRunner" =
      Except.ok (PyVal.str "SQLiteRelation", [("product", PyVal.str "o")]) ∧
    TaskDictM._init_product
        [("product", PyVal.str "o"), ("source", PyVal.str "a.py")] []
        (PyVal.str "NotebookRunner") (fun v => v) (fun s => s) =
      Except.error (PyErr.valueError
        (TaskDictM.missingProductClassMsg [("source", PyVal.str "a.py")])) :=
  ⟨(claim_C5 _ _ "NotebookRunner" (Option.some (PyVal.str "File"))
      (by decide)).1 (by decide),
   (claim_C5 [("product", PyVal.str "o"), ("source", PyVal.str "a.py")] []
      "NotebookRunner" Option.none (by decide)).2.2.2
      (PyVal.str "NotebookRunner") (PyVal.str "o") (fun v => v) (fun s => s)
      (by decide) (by decide) (by decide) (by decide)⟩

/-- C6: `resolve_product` keeps the raw value whenever no relative base
is given (flag falsy) or the class is not the file-backed `File`, and
rewrites a string path to the join of the resolved base directory with
the raw path when both hold; lifted through `_init_product`, with
`product_relative_to_source` truthy every raw path of a File product —
single value or each value of a named mapping — becomes
`join(resolve(parent(source)), raw)`, and with the flag falsy it is kept
literally. -/
theorem claim_C6 :
    (∀ (raw cls : PyVal) (rf : String → String),
      TaskDictM.resolve_product raw Option.none cls rf = Except.ok raw) ∧
    (∀ (raw : PyVal) (rel : String) (cls : PyVal) (rf : String → String),
      cls ≠ PyVal.str "File" →
      TaskDictM.resolve_product raw (Option.some rel) cls rf = Except.ok raw) ∧
    (∀ (p rel : String) (rf : String → String),
      TaskDictM.resolve_product (PyVal.str p) (Option.some rel)
          (PyVal.str "File") rf =
        Except.ok (PyVal.str (pyPathJoin (rf rel) p))) ∧
    (∀ (td td2 meta : PyDict) (tcls : PyVal) (lf : PyVal → PyVal)
        (rf : String → String) (p src : String) (prs : PyVal),
      dictLookup td "product" = Option.some (PyVal.str p) →
      TaskDictM.resolveProductClass (dictErase td "product") meta
          (TaskDictM.classNameOf tcls) = Except.ok (PyVal.str "File", td2) →
      dictContains td2 "product_client" = false →
      dictLookup meta "product_relative_to_source" = Option.some prs →
      dictLookup td2 "source" = Option.some (PyVal.str src) →
      (prs.truthy = true →
        TaskDictM._init_product td meta tcls lf rf =
          Except.ok (TaskDictM.ProductRes.single
            ⟨PyVal.str "File",
             PyVal.str (pyPathJoin (rf (pyParent src)) p), Option.none⟩, td2)) ∧
      (prs.truthy = false →
        TaskDictM._init_product td meta tcls lf rf =
          Except.ok (TaskDictM.ProductRes.single
            ⟨PyVal.str "File", PyVal.str p, Option.none⟩, td2))) ∧
    (∀ (td td2 meta : PyDict) (tcls : PyVal) (lf : PyVal → PyVal)
        (rf : String → String) (entries : List (String × String)) (src : String)
        (prs : PyVal),
      dictLookup td "product" = Option.some (PyVal.dict
        (entries.map (fun ks => (ks.1, PyVal.str ks.2)))) →
      TaskDictM.resolveProductClass (dictErase td "product") meta
          (TaskDictM.classNameOf tcls) = Except.ok (PyVal.str "File", td2) →
      dictContains td2 "product_client" = false →
      dictLookup meta "product_relative_to_source" = Option.some prs →
      dictLookup td2 "source" = Option.some (PyVal.str src) →
      prs.truthy = true →
      TaskDictM._init_product td meta tcls lf rf =
        Except.ok (TaskDictM.ProductRes.mapping
          (entries.map (fun ks => (ks.1,
            ⟨PyVal.str "File",
             PyVal.str (pyPathJoin (rf (pyParent src)) ks.2),
             Option.none⟩))), td2)) := by
  refine ⟨?_, ?_, ?_, ?_, ?_⟩
  · intro raw cls rf
    simp [TaskDictM.resolve_product]
  · intro raw rel cls rf h
    simp [TaskDictM.resolve_product, h]
  · intro p rel rf
    simp [TaskDictM.resolve_product]
  · intro td td2 meta tcls lf rf p src prs hp hrc hpc hprs hsrc
    constructor
    · intro hpt
      simp [TaskDictM._init_product, dictPop, hp, hrc, hpc, hprs, hpt, hsrc,
        TaskDictM.resolve_product, Bind.bind, Except.bind, pure, Except.pure]
    · intro hpf
      simp [TaskDictM._init_product, dictPop, hp, hrc, hpc, hprs, hpf, hsrc,
        TaskDictM.resolve_product, Bind.bind, Except.bind, pure, Except.pure]
  · intro td td2 meta tcls lf rf entries src prs hp hrc hpc hprs hsrc hpt
    have hmap2 : exceptMap
        (TaskDictM._init_product_entry (Option.some (pyParent src))
          (PyVal.str "File") rf Option.none)
        (entries.map (fun ks => (ks.1, PyVal.str ks.2))) =
      Except.ok (entries.map (fun ks => (ks.1,
        TaskDictM.Product.mk (PyVal.str "File")
          (PyVal.str (pyPathJoin (rf (pyParent src)) ks.2)) Option.none))) := by
      have hm := exceptMap_map
        (TaskDictM._init_product_entry (Option.some (pyParent src))
          (PyVal.str "File") rf Option.none)
        (fun kv => (kv.1, TaskDictM.Product.mk (PyVal.str "File")
          (match kv.2 with
           | PyVal.str s => PyVal.str (pyPathJoin (rf (pyParent src)) s)
           | v => v) Option.none))
        (entries.map (fun ks => (ks.1, PyVal.str ks.2)))
        (by
          intro a ha
          rcases List.mem_map.mp ha with ⟨ks, _, rfl⟩
          simp [TaskDictM._init_product_entry, TaskDictM.resolve_product,
            Bind.bind, Except.bind, pure, Except.pure])
      rw [hm, List.map_map]
      rfl
    simp [TaskDictM._init_product, dictPop, hp, hrc, hpc, hprs, hpt, hsrc,
      Bind.bind, Except.bind, pure, Except.pure, hmap2]

/-- Witness for C6: the spec's own example — raw path `out.csv`, source
`steps/clean.py` — resolves to `<resolved steps>/out.csv` with the flag
truthy and to the literal `out.csv` with the flag falsy. -/
theorem claim_C6_witness :
    TaskDictM._init_product
        [("product", PyVal.str "out.csv"), ("product_class", PyVal.str "File"),
         ("source", PyVal.str "steps/clean.py")]
        [("product_relative_to_source", PyVal.bool true)]
        (PyVal.str "NotebookRunner") (fun v => v)
        (fun s => "/ABS/" ++ s) =
      Except.ok (TaskDictM.ProductRes.single
        ⟨PyVal.str "File", PyVal.str "/ABS/steps/out.csv", Option.none⟩,
        [("source", PyVal.str "steps/clean.py")]) ∧
    TaskDictM._init_product
        [("product", PyVal.str "out.csv"), ("product_class", PyVal.str "File"),
         ("source", PyVal.str "steps/clean.py")]
        [("product_relative_to_source", PyVal.bool false)]
        (PyVal.str "NotebookRunner") (fun v => v)
        (fun s => "/ABS/" ++ s) =
      Except.ok (TaskDictM.ProductRes.single
        ⟨PyVal.str "File", PyVal.str "out.csv", Option.none⟩,
        [("source", PyVal.str "steps/clean.py")]) := by
  constructor
  · have h := (claim_C6.2.2.2.1
      [("product", PyVal.str "out.csv"), ("product_class", PyVal.str "File"),
       ("source", PyVal.str "steps/clean.py")]
      [("source", PyVal.str "steps/clean.py")]
      [("product_relative_to_source", PyVal.bool true)]
      (PyVal.str "NotebookRunner") (fun v => v) (fun s => "/ABS/" ++ s)
      "out.csv" "steps/clean.py" (PyVal.bool true)
      (by decide) (by decide) (by decide) (by decide) (by decide)).1 rfl
    have heq : PyVal.str (pyPathJoin ((fun s => "/ABS/" ++ s)
        (pyParent "steps/clean.py")) "out.csv") =
        PyVal.str "/ABS/steps/out.csv" := by decide
    rw [heq] at h
    exact h
  · exact (claim_C6.2.2.2.1
      [("product", PyVal.str "out.csv"), ("product_class", PyVal.str "File"),
       ("source", PyVal.str "steps/clean.py")]
      [("source", PyVal.str "steps/clean.py")]
      [("product_relative_to_source", PyVal.bool false)]
      (PyVal.str "NotebookRunner") (fun v => v) (fun s => "/ABS/" ++ s)
      "out.csv" "steps/clean.py" (PyVal.bool false)
      (by decide) (by decide) (by decide) (by decide) (by decide)).2 rfl

/-- C7: with no explicit class key, step-class resolution follows the
fixed suffix table — `.py`/`.ipynb` to the notebook-execution step
`NotebookRunner`, `.sql` to `SQLScript`, `.sh` to `ShellScript` — and
any other suffix raises a `KeyError` whose message names the unsupported
source and every member of the supported set
`{.py, .ipynb, .sql, .sh}`; `DAGSpec.get_task_class` behaves
identically to `TaskDict.get_task_class`. -/
theorem claim_C7 (td : PyDict) (s : String)
    (hc : dictContains td "class" = false)
    (hs : dictLookup td "source" = Option.some (PyVal.str s)) :
    ((pySuffix s = ".py" ∨ pySuffix s = ".ipynb") →
      TaskDictM.get_task_class td = Except.ok (PyVal.str "NotebookRunner", td)) ∧
    (pySuffix s = ".sql" →
      TaskDictM.get_task_class td = Except.ok (PyVal.str "SQLScript", td)) ∧
    (pySuffix s = ".sh" →
      TaskDictM.get_task_class td = Except.ok (PyVal.str "ShellScript", td)) ∧
    (pySuffix s ∉ [".py", ".ipynb", ".sql", ".sh"] →
      TaskDictM.get_task_class td =
        Except.error (PyErr.keyError (TaskDictM.noDefaultClassMsg (PyVal.str s))) ∧
      (∃ a b, TaskDictM.noDefaultClassMsg (PyVal.str s) = a ++ s ++ b) ∧
      (∀ suf ∈ [".py", ".ipynb", ".sql", ".sh"],
        ∃ a b, TaskDictM.noDefaultClassMsg (PyVal.str s) = a ++ suf ++ b)) ∧
    (∀ td' : PyDict, DAGSpecM.get_task_class td' = TaskDictM.get_task_class td') := by
  have hcl : dictLookup td "class" = Option.none :=
    (dictContains_eq_false_iff td "class").mp hc
  have her : dictErase td "class" = td := dictErase_of_lookup_none td "class" hcl
  have hred : TaskDictM.get_task_class td =
      (match TaskDictM.suffix2taskclass.find? (fun kv => kv.1 = pySuffix s) with
       | Option.some kv => Except.ok (PyVal.str kv.2, td)
       | Option.none =>
         Except.error (PyErr.keyError (TaskDictM.noDefaultClassMsg (PyVal.str s)))) := by
    simp [TaskDictM.get_task_class, dictPop, hcl, her, hs, PyVal.truthy]
  refine ⟨?_, ?_, ?_, ?_, ?_⟩
  · rintro (h | h) <;> rw [hred, h] <;> rfl
  · intro h
    rw [hred, h]
    rfl
  · intro h
    rw [hred, h]
    rfl
  · intro hnot
    have hfind : TaskDictM.suffix2taskclass.find?
        (fun kv => kv.1 = pySuffix s) = Option.none := by
      apply List.find?_eq_none.mpr
      intro kv hkv
      simp only [TaskDictM.suffix2taskclass, List.mem_cons,
        List.not_mem_nil, or_false] at hkv
      simp only [List.mem_cons, List.not_mem_nil, or_false, not_or] at hnot
      rcases hkv with h | h | h | h <;> subst h <;>
        simp only [decide_eq_true_eq] <;> intro heq <;>
        first
          | exact hnot.1 heq.symm
          | exact hnot.2.1 heq.symm
          | exact hnot.2.2.1 heq.symm
          | exact hnot.2.2.2 heq.symm
    refine ⟨by rw [hred, hfind], ?_, ?_⟩
    · refine ⟨"No default task class available for task with source: \"",
        "\". Default class is only available for files with extensions " ++
          TaskDictM.suffixSetRepr TaskDictM.suffix2taskclass ++
          ", otherwise you should set an explicit class key", ?_⟩
      simp [TaskDictM.noDefaultClassMsg, PyVal.pyStr, String.append_assoc]
    · intro suf hsuf
      have hinfix : ∃ a b, TaskDictM.suffixSetRepr TaskDictM.suffix2taskclass =
          a ++ suf ++ b := by
        simp only [List.mem_cons, List.not_mem_nil, or_false] at hsuf
        rcases hsuf with h | h | h | h <;> subst h
        · exact ⟨"\x7b\x27", "\x27, \x27.ipynb\x27, \x27.sql\x27, \x27.sh\x27\x7d",
            by decide⟩
        · exact ⟨"\x7b\x27.py\x27, \x27", "\x27, \x27.sql\x27, \x27.sh\x27\x7d",
            by decide⟩
        · exact ⟨"\x7b\x27.py\x27, \x27.ipynb\x27, \x27", "\x27, \x27.sh\x27\x7d",
            by decide⟩
        · exact ⟨"\x7b\x27.py\x27, \x27.ipynb\x27, \x27.sql\x27, \x27", "\x27\x7d",
            by decide⟩
      rcases hinfix with ⟨a, b, hab⟩
      refine ⟨"No default task class available for task with source: \"" ++ s ++
        "\". Default class is only available for files with extensions " ++ a,
        b ++ ", otherwise you should set an explicit class key", ?_⟩
      simp [TaskDictM.noDefaultClassMsg, PyVal.pyStr, hab, String.append_assoc]
  · intro td'
    rfl

/-- Witness for C7 at the spec's examples `a.py`, `b.sql`, `c.sh`,
`d.txt`. -/
theorem claim_C7_witness :
    TaskDictM.get_task_class [("source", PyVal.str "a.py")] =
      Except.ok (PyVal.str "NotebookRunner", [("source", PyVal.str "a.py")]) ∧
    TaskDictM.get_task_class [("source", PyVal.str "b.sql")] =
      Except.ok (PyVal.str "SQLScript", [("source", PyVal.str "b.sql")]) ∧
    TaskDictM.get_task_class [("source", PyVal.str "c.sh")] =
      Except.ok (PyVal.str "ShellScript", [("source", PyVal.str "c.sh")]) ∧
    TaskDictM.get_task_class [("source", PyVal.str "d.txt")] =
      Except.error (PyErr.keyError
        (TaskDictM.noDefaultClassMsg (PyVal.str "d.txt"))) :=
  ⟨(claim_C7 _ "a.py" (by decide) (by decide)).1 (Or.inl (by decide)),
   (claim_C7 _ "b.sql" (by decide) (by decide)).2.1 (by decide),
   (claim_C7 _ "c.sh" (by decide) (by decide)).2.2.1 (by decide),
   ((claim_C7 _ "d.txt" (by decide) (by decide)).2.2.2.1 (by decide)).1⟩

theorem backfill_lookup (m : PyDict) (k k' : String) :
    (k ≠ k' →
      dictLookup (if dictContains m k = true then m
        else dictSet m k (PyVal.bool true)) k' = dictLookup m k') ∧
    dictLookup (if dictContains m k = true then m
      else dictSet m k (PyVal.bool true)) k =
      Option.some ((dictLookup m k).getD (PyVal.bool true)) := by
  by_cases hc : dictContains m k = true
  · rcases (by simpa [dictContains, Option.isSome_iff_exists] using hc :
      ∃ v, dictLookup m k = Option.some v) with ⟨v, hv⟩
    simp [hc, hv]
  · have hn : dictLookup m k = Option.none :=
      (dictContains_eq_false_iff m k).mp (Bool.eq_false_iff.mpr hc)
    constructor
    · intro hne
      simp [hc, dictLookup_dictSet_ne m k k' (PyVal.bool true) hne]
    · simp [hc, hn, dictLookup_dictSet_self]

/-- C10: `TaskDict.validate` raises `KeyError` for a missing
`meta['extract_product']` and (after the required-key check passes) for
a missing `meta['extract_upstream']`; `_init_product` raises `KeyError`
for a missing `meta['product_relative_to_source']` at materialization;
none of these flags is defaulted to false — while the DAG Builder's
`validate_meta` back-fills only `infer_upstream` and `extract_product`,
leaving `extract_upstream` and `product_relative_to_source` untouched. -/
theorem claim_C10 :
    (∀ data meta : PyDict, dictContains meta "extract_product" = false →
      TaskDictM.validate data meta =
        Except.error (PyErr.keyError "extract_product")) ∧
    (∀ (data meta : PyDict) (ep : PyVal),
      dictLookup meta "extract_product" = Option.some ep →
      dictContains data "source" = true →
      (ep.truthy = false → dictContains data "product" = true) →
      dictContains meta "extract_upstream" = false →
      TaskDictM.validate data meta =
        Except.error (PyErr.keyError "extract_upstream")) ∧
    (∀ (td td2 meta : PyDict) (tcls cls2 : PyVal) (lf : PyVal → PyVal)
        (rf : String → String) (pv : PyVal),
      dictLookup td "product" = Option.some pv →
      TaskDictM.resolveProductClass (dictErase td "product") meta
        (TaskDictM.classNameOf tcls) = Except.ok (cls2, td2) →
      dictContains td2 "product_client" = false →
      dictContains meta "product_relative_to_source" = false →
      TaskDictM._init_product td meta tcls lf rf =
        Except.error (PyErr.keyError "product_relative_to_source")) ∧
    (∀ (data m : PyDict), dictLookup data "meta" = Option.some (PyVal.dict m) →
      ∃ m2, DAGSpecM.validate_meta data =
          Except.ok (dictSet data "meta" (PyVal.dict m2)) ∧
        dictLookup m2 "infer_upstream" =
          Option.some ((dictLookup m "infer_upstream").getD (PyVal.bool true)) ∧
        dictLookup m2 "extract_product" =
          Option.some ((dictLookup m "extract_product").getD (PyVal.bool true)) ∧
        dictLookup m2 "extract_upstream" = dictLookup m "extract_upstream" ∧
        dictLookup m2 "product_relative_to_source" =
          dictLookup m "product_relative_to_source") := by
  refine ⟨?_, ?_, ?_, ?_⟩
  · intro data meta hmp
    have hl := (dictContains_eq_false_iff meta "extract_product").mp hmp
    simp [TaskDictM.validate, hl, Bind.bind, Except.bind]
  · intro data meta ep hep hsrc hprod heu
    have hl := (dictContains_eq_false_iff meta "extract_upstream").mp heu
    by_cases hept : ep.truthy = true
    · simp [TaskDictM.validate, hep, hept, TaskDictM.validateKeys, hsrc, hl,
        Bind.bind, Except.bind, pure, Except.pure]
    · have hpd := hprod (Bool.eq_false_iff.mpr hept)
      simp [TaskDictM.validate, hep, Bool.eq_false_iff.mpr hept,
        TaskDictM.validateKeys, hsrc, hpd, hl,
        Bind.bind, Except.bind, pure, Except.pure]
  · intro td td2 meta tcls cls2 lf rf pv hp hrc hpc hprs
    have hl := (dictContains_eq_false_iff meta "product_relative_to_source").mp hprs
    simp [TaskDictM._init_product, dictPop, hp, hrc, hpc, hl,
      Bind.bind, Except.bind, pure, Except.pure]
  · intro data m hm
    have hcont : dictContains data "meta" = true := by
      simp [dictContains, hm]
    refine ⟨(if dictContains (if dictContains m "infer_upstream" = true then m
          else dictSet m "infer_upstream" (PyVal.bool true)) "extract_product" = true
        then (if dictContains m "infer_upstream" = true then m
          else dictSet m "infer_upstream" (PyVal.bool true))
        else dictSet (if dictContains m "infer_upstream" = true then m
          else dictSet m "infer_upstream" (PyVal.bool true)) "extract_product"
          (PyVal.bool true)), ?_, ?_, ?_, ?_, ?_⟩
    · simp [DAGSpecM.validate_meta, hcont, hm, Bind.bind, Except.bind, pure,
        Except.pure]
    · rw [(backfill_lookup _ "extract_product" "infer_upstream").1 (by decide),
        (backfill_lookup m "infer_upstream" "infer_upstream").2]
    · rw [(backfill_lookup _ "extract_product" "extract_product").2,
        (backfill_lookup m "infer_upstream" "extract_product").1 (by decide)]
    · rw [(backfill_lookup _ "extract_product" "extract_upstream").1 (by decide),
        (backfill_lookup m "infer_upstream" "extract_upstream").1 (by decide)]
    · rw [(backfill_lookup _ "extract_product" "product_relative_to_source").1
          (by decide),
        (backfill_lookup m "infer_upstream" "product_relative_to_source").1
          (by decide)]

/-- Witness for C10: concrete missing-flag KeyErrors and the back-fill
of an empty meta mapping. -/
theorem claim_C10_witness :
    TaskDictM.validate [("source", PyVal.str "a.py")] [] =
      Except.error (PyErr.keyError "extract_product") ∧
    TaskDictM.validate [("source", PyVal.str "a.py")]
        [("extract_product", PyVal.bool true)] =
      Except.error (PyErr.keyError "extract_upstream") ∧
    TaskDictM._init_product
        [("product", PyVal.str "o"), ("product_class", PyVal.str "File")]
        [("extract_product", PyVal.bool true)] (PyVal.str "NotebookRunner")
        (fun v => v) (fun s => s) =
      Except.error (PyErr.keyError "product_relative_to_source") ∧
    (∃ m2, DAGSpecM.validate_meta [("meta", PyVal.dict [])] =
        Except.ok (dictSet [("meta", PyVal.dict [])] "meta" (PyVal.dict m2)) ∧
      dictLookup m2 "infer_upstream" =
        Option.some ((dictLookup ([] : PyDict) "infer_upstream").getD
          (PyVal.bool true)) ∧
      dictLookup m2 "extract_product" =
        Option.some ((dictLookup ([] : PyDict) "extract_product").getD
          (PyVal.bool true)) ∧
      dictLookup m2 "extract_upstream" =
        dictLookup ([] : PyDict) "extract_upstream" ∧
      dictLookup m2 "product_relative_to_source" =
        dictLookup ([] : PyDict) "product_relative_to_source") :=
  ⟨claim_C10.1 [("source", PyVal.str "a.py")] [] (by decide),
   claim_C10.2.1 [("source", PyVal.str "a.py")]
     [("extract_product", PyVal.bool true)] (PyVal.bool true)
     (by decide) (by decide) (by decide) (by decide),
   claim_C10.2.2.1 [("product", PyVal.str "o"),
       ("product_class", PyVal.str "File")] []
     [("extract_product", PyVal.bool true)] (PyVal.str "NotebookRunner")
     (PyVal.str "File") (fun v => v) (fun s => s) (PyVal.str "o")
     (by decide) (by decide) (by decide) (by decide),
   claim_C10.2.2.2 [("meta", PyVal.dict [])] [] (by decide)⟩

/-- Counterexample to C9 as stated: the task mapping `c9_task` carries an
explicit `upstream` key while `meta.infer_upstream` is enabled, yet the
DAG Builder's `process_tasks` translates it into a registered step (and
also an explicit `product` key, with extraction disabled here but the
same overwrite applies to `extract_product`); no exclusion is
enforced. -/
theorem claim_C9_counterexample :
    dictContains c9_task "upstream" = true ∧
    DAGSpecM.metaItem c9_spec "infer_upstream" = Except.ok (PyVal.bool true) ∧
    DAGSpecM.process_tasks [c9_task] c9_spec c9_upmap [] =
      Except.ok ⟨[(PyVal.str "a.py", c9_expected_task)], [],
        [DAGSpecM.BuildEvent.register (PyVal.str "a.py")]⟩ := by
  decide

/-- C9 (amended): the Task Builder enforces the exclusions at
construction — with truthy `extract_upstream` and a truthy explicit
`upstream` value (resp. truthy `extract_product` and a truthy `product`
value) validation raises the corresponding ValueError, so no violating
task is materialized on that path.  The DAG Builder enforces nothing:
`infer_upstream` (resp. `extract_product`) merely overwrites the
explicit key, so the step built is independent of the explicit value. -/
theorem claim_C9 :
    (∀ (data meta : PyDict) (ep eu : PyVal),
      dictLookup meta "extract_product" = Option.some ep →
      dictLookup meta "extract_upstream" = Option.some eu →
      dictContains data "source" = true →
      (ep.truthy = false → dictContains data "product" = true) →
      eu.truthy = true → (dictGet data "upstream").truthy = true →
      TaskDictM.validate data meta =
        Except.error (PyErr.valueError (TaskDictM.extractUpstreamMsg data))) ∧
    (∀ (data meta : PyDict) (ep eu : PyVal),
      dictLookup meta "extract_product" = Option.some ep →
      dictLookup meta "extract_upstream" = Option.some eu →
      dictContains data "source" = true →
      (eu.truthy && (dictGet data "upstream").truthy) = false →
      ep.truthy = true → (dictGet data "product").truthy = true →
      TaskDictM.validate data meta =
        Except.error (PyErr.valueError (TaskDictM.extractProductMsg data))) ∧
    (∀ (ds : PyDict) (infer extract : PyVal)
        (up pm : List (PyVal × PyVal)) (td : PyDict) (v w : PyVal),
      infer.truthy = true →
      DAGSpecM.buildOne ds infer extract up pm (dictSet td "upstream" v) =
        DAGSpecM.buildOne ds infer extract up pm (dictSet td "upstream" w)) ∧
    (∀ (ds : PyDict) (infer extract : PyVal)
        (up pm : List (PyVal × PyVal)) (td : PyDict) (v w : PyVal),
      infer.truthy = false → extract.truthy = true →
      DAGSpecM.buildOne ds infer extract up pm (dictSet td "product" v) =
        DAGSpecM.buildOne ds infer extract up pm (dictSet td "product" w)) := by
  refine ⟨?_, ?_, ?_, ?_⟩
  · intro data meta ep eu hep heu hsrc hprod hut hup
    by_cases hept : ep.truthy = true
    · simp [TaskDictM.validate, hep, heu, hept, TaskDictM.validateKeys, hsrc,
        hut, hup, Bind.bind, Except.bind, pure, Except.pure]
    · have hpd := hprod (Bool.eq_false_iff.mpr hept)
      simp [TaskDictM.validate, hep, heu, Bool.eq_false_iff.mpr hept,
        TaskDictM.validateKeys, hsrc, hpd, hut, hup,
        Bind.bind, Except.bind, pure, Except.pure]
  · intro data meta ep eu hep heu hsrc hviol hept hpt
    simp [TaskDictM.validate, hep, heu, hept, TaskDictM.validateKeys, hsrc,
      hviol, hpt, Bind.bind, Except.bind, pure, Except.pure]
  · intro ds infer extract up pm td v w hit
    cases hsrc : dictLookup td "source" with
    | none =>
      simp [DAGSpecM.buildOne,
        dictLookup_dictSet_ne td "upstream" "source" v (by decide),
        dictLookup_dictSet_ne td "upstream" "source" w (by decide), hsrc,
        Bind.bind, Except.bind, pure, Except.pure]
    | some src =>
      cases hf : up.find? (fun kv => kv.1 = src) with
      | none =>
        simp [DAGSpecM.buildOne,
          dictLookup_dictSet_ne td "upstream" "source" v (by decide),
          dictLookup_dictSet_ne td "upstream" "source" w (by decide), hsrc,
          hit, hf, Bind.bind, Except.bind, pure, Except.pure]
      | some kv =>
        simp [DAGSpecM.buildOne,
          dictLookup_dictSet_ne td "upstream" "source" v (by decide),
          dictLookup_dictSet_ne td "upstream" "source" w (by decide), hsrc,
          hit, hf, dictSet_dictSet_self,
          Bind.bind, Except.bind, pure, Except.pure]
  · intro ds infer extract up pm td v w hif het
    cases hsrc : dictLookup td "source" with
    | none =>
      simp [DAGSpecM.buildOne,
        dictLookup_dictSet_ne td "product" "source" v (by decide),
        dictLookup_dictSet_ne td "product" "source" w (by decide), hsrc,
        Bind.bind, Except.bind, pure, Except.pure]
    | some src =>
      cases hf : pm.find? (fun kv => kv.1 = src) with
      | none =>
        simp [DAGSpecM.buildOne,
          dictLookup_dictSet_ne td "product" "source" v (by decide),
          dictLookup_dictSet_ne td "product" "source" w (by decide), hsrc,
          hif, het, hf, Bind.bind, Except.bind, pure, Except.pure]
      | some kv =>
        simp [DAGSpecM.buildOne,
          dictLookup_dictSet_ne td "product" "source" v (by decide),
          dictLookup_dictSet_ne td "product" "source" w (by decide), hsrc,
          hif, het, hf, dictSet_dictSet_self,
          Bind.bind, Except.bind, pure, Except.pure]

/-- Witness for C9: the Task Builder rejects a concrete violating task;
the DAG Builder builds the same step whatever the explicit upstream
value was. -/
theorem claim_C9_witness :
    TaskDictM.validate
        [("source", PyVal.str "a.py"), ("upstream", PyVal.str "b")]
        [("extract_product", PyVal.bool true),
         ("extract_upstream", PyVal.bool true)] =
      Except.error (PyErr.valueError (TaskDictM.extractUpstreamMsg
        [("source", PyVal.str "a.py"), ("upstream", PyVal.str "b")])) ∧
    DAGSpecM.buildOne c9_spec (PyVal.bool true) (PyVal.bool false) c9_upmap []
        (dictSet [("source", PyVal.str "a.py")] "upstream" (PyVal.str "b")) =
      DAGSpecM.buildOne c9_spec (PyVal.bool true) (PyVal.bool false) c9_upmap []
        (dictSet [("source", PyVal.str "a.py")] "upstream" (PyVal.str "zzz")) := by
  constructor
  · have h := claim_C9.1
      [("source", PyVal.str "a.py"), ("upstream", PyVal.str "b")]
      [("extract_product", PyVal.bool true),
       ("extract_upstream", PyVal.bool true)]
      (PyVal.bool true) (PyVal.bool true)
      (by decide) (by decide) (by decide) (by decide) (by decide) (by decide)
    exact h
  · exact claim_C9.2.2.1 c9_spec (PyVal.bool true) (PyVal.bool false) c9_upmap
      [] [("source", PyVal.str "a.py")] (PyVal.str "b") (PyVal.str "zzz")
      (by decide)


theorem wire_flatten (pairs : List (TaskDictM.Task × PyVal))
    (edgess : List (List (PyVal × PyVal)))
    (D : List (PyVal × TaskDictM.Task))
    (htasks : (pairs.map Prod.fst).Nodup)
    (he : exceptMap (DAGSpecM.wireTask pairs D) (pairs.map Prod.fst) =
      Except.ok edgess) :
    edgess.flatten = pairs.flatMap (fun p =>
      (pyIterD p.2).map (fun dep => (dep, p.1.name))) := by
  have hfunE : ∀ (t : TaskDictM.Task) (l : List (PyVal × PyVal)),
      DAGSpecM.wireTask pairs D t = Except.ok l →
      l = ((DAGSpecM.wireTask pairs D t).toOption).getD [] := by
    intro t l h
    rw [h]
    rfl
  have hmapE : edgess = (pairs.map Prod.fst).map
      (fun t => ((DAGSpecM.wireTask pairs D t).toOption).getD []) :=
    forall₂_eq_map hfunE ((exceptMap_ok_iff _ _ _).mp he)
  have hcong : ∀ p ∈ pairs,
      ((DAGSpecM.wireTask pairs D p.1).toOption).getD [] =
        (pyIterD p.2).map (fun dep => (dep, p.1.name)) := by
    intro p hp
    obtain ⟨l, hl⟩ := forall₂_mem_left ((exceptMap_ok_iff _ _ _).mp he) p.1
      (List.mem_map_of_mem Prod.fst hp)
    have hfind := find_fst_eq_self pairs p htasks hp
    have hl0 := hl
    rw [DAGSpecM.wireTask] at hl
    simp only [hfind, Option.map_some', Option.getD_some] at hl
    rcases (exceptBind_ok _ _ _).mp hl with ⟨deps, hdeps, hl⟩
    have hdepsD : pyIterD p.2 = deps := by rw [pyIterD, hdeps]
    have hfunD : ∀ (dep : PyVal) (e : PyVal × PyVal),
        DAGSpecM.wireDep D p.1 dep = Except.ok e → e = (dep, p.1.name) := by
      intro dep e hde
      rw [DAGSpecM.wireDep] at hde
      cases hlk : DAGSpecM.dagLookup D dep with
      | none =>
        rw [hlk] at hde
        exact absurd hde (by simp)
      | some q =>
        rw [hlk] at hde
        simpa [pure, Except.pure, eq_comm] using hde
    have hval : l = deps.map (fun dep => (dep, p.1.name)) :=
      forall₂_eq_map hfunD ((exceptMap_ok_iff _ _ _).mp hl)
    rw [hl0]
    simp [Except.toOption, hval, hdepsD]
  calc edgess.flatten
      = ((pairs.map Prod.fst).map
          (fun t => ((DAGSpecM.wireTask pairs D t).toOption).getD [])).flatten := by
        rw [hmapE]
    _ = (pairs.map
          (fun p => ((DAGSpecM.wireTask pairs D p.1).toOption).getD [])).flatten := by
        rw [List.map_map]
        rfl
    _ = (pairs.map
          (fun p => (pyIterD p.2).map (fun dep => (dep, p.1.name)))).flatten :=
        congrArg List.flatten (List.map_congr_left hcong)
    _ = pairs.flatMap (fun p =>
          (pyIterD p.2).map (fun dep => (dep, p.1.name))) :=
        (List.flatMap_def pairs _).symm

/-- C8: `process_tasks` is a pure two-pass process — its event log is all
registrations followed by all wirings, with one registration per input
task — and, for any two permutations of the same task list that both
succeed, with distinct step names (no step overwritten during
registration), the final wired graph is the same: equal multisets of
registered steps and of dependency edges. -/
theorem claim_C8 (ts1 ts2 : List PyDict) (ds : PyDict)
    (up pm : List (PyVal × PyVal)) (g1 g2 : DAGSpecM.Graph)
    (hperm : ts1.Perm ts2)
    (h1 : DAGSpecM.process_tasks ts1 ds up pm = Except.ok g1)
    (h2 : DAGSpecM.process_tasks ts2 ds up pm = Except.ok g2)
    (hnodup : (g1.steps.map Prod.fst).Nodup)
    (hlen : g1.steps.length = ts1.length) :
    (g1.trace = g1.trace.filter (fun e => e.isRegister) ++
        g1.trace.filter (fun e => !e.isRegister) ∧
      (g1.trace.filter (fun e => e.isRegister)).length = ts1.length) ∧
    (g1.steps : Multiset (PyVal × TaskDictM.Task)) = (g2.steps : Multiset _) ∧
    (g1.edges : Multiset (PyVal × PyVal)) = (g2.edges : Multiset _) := by
  simp only [DAGSpecM.process_tasks] at h1 h2
  rcases (exceptBind_ok _ _ _).mp h1 with ⟨s1, hS1, h1⟩
  rcases (exceptBind_ok _ _ _).mp h1 with ⟨infer, hI1, h1⟩
  rcases (exceptBind_ok _ _ _).mp h1 with ⟨extract, hX1, h1⟩
  rcases (exceptBind_ok _ _ _).mp h1 with ⟨pairs1, hp1, h1⟩
  rcases (exceptBind_ok _ _ _).mp h1 with ⟨edgess1, he1, h1⟩
  rcases (exceptBind_ok _ _ _).mp h2 with ⟨s2, hS2, h2⟩
  rcases (exceptBind_ok _ _ _).mp h2 with ⟨infer2, hI2, h2⟩
  rw [hI1] at hI2
  obtain rfl : infer = infer2 := Except.ok.inj hI2
  rcases (exceptBind_ok _ _ _).mp h2 with ⟨extract2, hX2, h2⟩
  rw [hX1] at hX2
  obtain rfl : extract = extract2 := Except.ok.inj hX2
  rcases (exceptBind_ok _ _ _).mp h2 with ⟨pairs2, hp2, h2⟩
  rcases (exceptBind_ok _ _ _).mp h2 with ⟨edgess2, he2, h2⟩
  simp only [pure, Except.pure] at h1 h2
  have hg1 := (Except.ok.inj h1).symm
  have hg2 := (Except.ok.inj h2).symm
  clear h1 h2
  subst hg1
  subst hg2
  dsimp only at hnodup hlen ⊢
  have hfun : ∀ (a : PyDict) (b : TaskDictM.Task × PyVal),
      DAGSpecM.buildOne ds infer extract up pm a = Except.ok b →
      b = ((DAGSpecM.buildOne ds infer extract up pm a).toOption).getD default := by
    intro a b hab
    rw [hab]
    rfl
  have hpairs1 : pairs1 = ts1.map (fun td =>
      ((DAGSpecM.buildOne ds infer extract up pm td).toOption).getD default) :=
    forall₂_eq_map hfun ((exceptMap_ok_iff _ _ _).mp hp1)
  have hpairs2 : pairs2 = ts2.map (fun td =>
      ((DAGSpecM.buildOne ds infer extract up pm td).toOption).getD default) :=
    forall₂_eq_map hfun ((exceptMap_ok_iff _ _ _).mp hp2)
  have hpp : pairs1.Perm pairs2 := by
    rw [hpairs1, hpairs2]
    exact hperm.map _
  have hlen1 : pairs1.length = ts1.length := by
    rw [hpairs1, List.length_map]
  have hsteps1 : pairs1.foldl (fun d p => DAGSpecM.dagSet d p.1.name p.1) [] =
      pairs1.map (fun p => (p.1.name, p.1)) := by
    have h := regFold_eq_of_length pairs1 [] (by simpa [hlen1] using hlen)
    simpa using h
  have hnames1 : (pairs1.map (fun p => p.1.name)).Nodup := by
    rw [hsteps1] at hnodup
    simpa [List.map_map, Function.comp] using hnodup
  have htasks1 : (pairs1.map Prod.fst).Nodup := by
    have h : ((pairs1.map Prod.fst).map TaskDictM.Task.name).Nodup := by
      simpa [List.map_map, Function.comp] using hnames1
    exact List.Nodup.of_map _ h
  have hnames2 : (pairs2.map (fun p => p.1.name)).Nodup :=
    ((hpp.map (fun p => p.1.name)).nodup_iff).mp hnames1
  have htasks2 : (pairs2.map Prod.fst).Nodup := by
    have h : ((pairs2.map Prod.fst).map TaskDictM.Task.name).Nodup := by
      simpa [List.map_map, Function.comp] using hnames2
    exact List.Nodup.of_map _ h
  have hsteps2 : pairs2.foldl (fun d p => DAGSpecM.dagSet d p.1.name p.1) [] =
      pairs2.map (fun p => (p.1.name, p.1)) := by
    have h := regFold_of_nodup pairs2 [] (by simpa using hnames2)
    simpa using h
  have hiter1 : ((pairs1.map (fun p => (p.1.name, p.1))).map (fun kv => kv.2)) =
      pairs1.map Prod.fst := by
    rw [List.map_map]
    rfl
  have hiter2 : ((pairs2.map (fun p => (p.1.name, p.1))).map (fun kv => kv.2)) =
      pairs2.map Prod.fst := by
    rw [List.map_map]
    rfl
  rw [hsteps1, hiter1] at he1
  rw [hsteps2, hiter2] at he2
  have hflat1 := wire_flatten pairs1 edgess1 _ htasks1 he1
  have hflat2 := wire_flatten pairs2 edgess2 _ htasks2 he2
  refine ⟨⟨?_, ?_⟩, ?_, ?_⟩
  · simp [List.filter_append, List.filter_map, Function.comp_def,
      DAGSpecM.BuildEvent.isRegister]
  · simp [List.filter_append, List.filter_map, Function.comp_def,
      DAGSpecM.BuildEvent.isRegister, hlen1]
  · rw [hsteps1, hsteps2]
    exact Multiset.coe_eq_coe.mpr (hpp.map _)
  · rw [hflat1, hflat2]
    exact Multiset.coe_eq_coe.mpr (hpp.flatMap_right _)

/-- Witness for C8: a two-task list with one dependency, processed in
both orders, yields the registrations-then-wirings log and the same
step/edge multisets. -/
theorem claim_C8_witness :
    (c8_g1.trace = c8_g1.trace.filter (fun e => e.isRegister) ++
        c8_g1.trace.filter (fun e => !e.isRegister) ∧
      (c8_g1.trace.filter (fun e => e.isRegister)).length =
        [c8_taskA, c8_taskB].length) ∧
    (c8_g1.steps : Multiset (PyVal × TaskDictM.Task)) = (c8_g2.steps : Multiset _) ∧
    (c8_g1.edges : Multiset (PyVal × PyVal)) = (c8_g2.edges : Multiset _) :=
  claim_C8 [c8_taskA, c8_taskB] [c8_taskB, c8_taskA] c8_spec [] [] c8_g1 c8_g2
    (by decide) (by decide) (by decide) (by decide) (by decide)
